import Mathlib

set_option maxRecDepth 8000

/-!
Shallow embedding of the Webpack Patcher userscript (v2 engine: classes
`WebpackPatcher`, `WebpackPatchRegistrar`, and the `window.WebpackPatcher`
surface object).

Modeling conventions:
* JS strings are `List Char` (`Str`); `String.replace` / `String.replaceAll`
  with a string pattern are implemented character-by-character exactly as the
  JS spec scans (non-overlapping, left to right, replacements not rescanned).
* JS object identity (`===` on functions, arrays, RegExp objects) is modeled
  with numeric `ref` tags; value types (strings, booleans) compare by value.
* Replacement patterns (`match`) are modeled as literal strings; a RegExp used
  in a patch `find` is modeled as an opaque test predicate looked up by its
  `ref` in the engine `Config` (mirroring `RegExp.test`).  `replace` callback
  functions are modeled as an oracle `fn_eval` applied to the matched text.
* Dynamic compilation (`eval` / `new Function`) may throw; this is modeled by
  the `compile_ok : Str → Bool` oracle in `Config`.  A successfully compiled
  factory is a fresh object whose source text is the patched code.
* A JS `throw` escaping a method is modeled by `Except.error`; methods that
  catch internally are total functions.
-/

abbrev Str := List Char

/-- Whether `n` occurs as a contiguous substring of `s` (JS `String.includes`
and the "did the replacer fire" test: an empty needle always matches). -/
def containsSub (n : Str) : Str → Bool
  | [] => n.isEmpty
  | s@(_ :: cs) => n.isPrefixOf s || containsSub n cs

/-- JS `String.prototype.replace` with a string pattern: replace the first
occurrence of `n` in `s` by `r`; the empty pattern matches at position 0. -/
def strReplaceFirst (n r : Str) : Str → Str
  | [] => if n.isEmpty then r else []
  | s@(c :: cs) => if n.isPrefixOf s then r ++ s.drop n.length else c :: strReplaceFirst n r cs

/-- Fuel-driven scan of JS `String.prototype.replaceAll` with a nonempty string
pattern: at each position, either consume a match (emitting `r`, never
rescanning it) or emit one character.  `fuel ≥ s.length` makes it total. -/
def replAllGo (n r : Str) : Nat → Str → Str
  | 0, s => s
  | _ + 1, [] => []
  | fuel + 1, s@(c :: cs) =>
    if n.isPrefixOf s then r ++ replAllGo n r fuel (s.drop n.length)
    else c :: replAllGo n r fuel cs

/-- JS `replaceAll` with the empty string pattern inserts `r` before every
character and once at the end. -/
def jsEmptyReplaceAll (r : Str) (s : Str) : Str :=
  s.foldr (fun c acc => r ++ c :: acc) r

/-- JS `String.prototype.replaceAll` with a string pattern. -/
def strReplaceAll (n r s : Str) : Str :=
  if n.isEmpty then jsEmptyReplaceAll r s else replAllGo n r s.length s

/-- The backquote character (code 96), written by code point to keep it out
of the source text. -/
def backquoteChar : Char := Char.ofNat 96

/-- The single-quote character (code 39). -/
def apostropheChar : Char := Char.ofNat 39

/-- ECMAScript `GetSubstitution` for a plain-string replacement with a string
search pattern (no capture groups): `$$` emits `$`, `$&` the matched text,
dollar-backquote the portion of the original string before the match,
dollar-quote the portion after it; any other `$`-sequence (including `$n`,
since the capture list is empty) is literal. -/
def getSubstitution (matched before after : Str) : Str → Str
  | [] => []
  | [c] => [c]
  | c1 :: c2 :: rest =>
    if c1 = '$' then
      if c2 = '$' then '$' :: getSubstitution matched before after rest
      else if c2 = '&' then matched ++ getSubstitution matched before after rest
      else if c2 = backquoteChar then before ++ getSubstitution matched before after rest
      else if c2 = apostropheChar then after ++ getSubstitution matched before after rest
      else c1 :: getSubstitution matched before after (c2 :: rest)
    else c1 :: getSubstitution matched before after (c2 :: rest)

/-- Fuel-driven scan of JS `replaceAll` with a plain STRING replacement: like
`replAllGo` but each match emits `GetSubstitution` of the replacement, so
`$`-escapes in the replacement text are expanded.  `pre` tracks the portion of
the original string already scanned (the dollar-backquote context). -/
def replAllSubstGo (n r : Str) : Nat → Str → Str → Str
  | 0, _, s => s
  | _ + 1, _, [] => []
  | fuel + 1, pre, s@(c :: cs) =>
    if n.isPrefixOf s then
      getSubstitution n pre (s.drop n.length) r
        ++ replAllSubstGo n r fuel (pre ++ n) (s.drop n.length)
    else c :: replAllSubstGo n r fuel (pre ++ [c]) cs

/-- JS `replaceAll` with the empty string pattern and a string replacement:
the substitution is emitted before every character and at the end, with the
matched text empty. -/
def jsEmptySubstGo (r : Str) : Str → Str → Str
  | pre, [] => getSubstitution [] pre [] r
  | pre, c :: cs => getSubstitution [] pre (c :: cs) r ++ c :: jsEmptySubstGo r (pre ++ [c]) cs

/-- JS `String.prototype.replaceAll` with a plain STRING replacement value
(ECMAScript `GetSubstitution` applies — unlike the engine's rule loop, which
wraps every replacement in a callback and therefore substitutes literally). -/
def strReplaceAllSubst (n r s : Str) : Str :=
  if n.isEmpty then jsEmptySubstGo r [] s else replAllSubstGo n r s.length [] s

/-- Whether a string is free of the dollar character (no `GetSubstitution`
escape can fire from it). -/
def noDollar (s : Str) : Bool := s.all fun c => !(c = '$')

/-- Every nonempty prefix of `t` fails to be a suffix of `r`
(used as a decidable side condition for the placeholder lemmas). -/
def noPreSuf (t r : Str) : Bool :=
  (List.range t.length).all fun k => !((t.take (k + 1)).isSuffixOf r)

/-- Every nonempty suffix of `t` fails to be a prefix of `r`. -/
def noSufPre (t r : Str) : Bool :=
  (List.range t.length).all fun k => !((t.drop k).isPrefixOf r)

/-- Decidable package of non-interference conditions between a token `t` and a
replacement text `r`: `t` does not occur in `r`, `r` does not occur in `t`, no
nonempty prefix of `t` is a suffix of `r` and no nonempty suffix of `t` is a
prefix of `r`.  Under these conditions replacing other tokens by `r` can never
create an occurrence of `t`. -/
def cleanPair (t r : Str) : Bool :=
  !containsSub t r && !containsSub r t && noPreSuf t r && noSufPre t r

/-! Engine data model -/

/-- A `find` identifier or a replacement target: a literal substring or a
RegExp object (identified by its object `ref`; its `test` behavior is the
`Config.regex_test` oracle). -/
inductive Matcher where
  | str (s : Str)
  | re (ref : Nat)
deriving DecidableEq

/-- The `find` field of a patch: a single matcher or an array of matchers
(the array is a JS object, so it carries an identity `ref` for `===`). -/
inductive FindVal where
  | one (m : Matcher)
  | arr (ref : Nat) (ms : List Matcher)
deriving DecidableEq

/-- The `replace` field of a replacement rule: literal text or a callback
function (identified by `ref`, evaluated by the `Config.fn_eval` oracle on the
matched text). -/
inductive ReplaceVal where
  | str (r : Str)
  | fn (ref : Nat)
deriving DecidableEq

/-- One entry of a patch's `replacements` array (`match` is a Lean keyword, so
the field is named `mtch`).  `global` selects `replaceAll` over `replace`. -/
structure Replacement where
  mtch : Str
  replace : ReplaceVal
  global : Bool
deriving DecidableEq

/-- A webpack module factory as the engine sees it: an object identity, its
source text (`toString()`), and the optional `SYM_ORIGINAL_FACTORY` marker the
engine writes on factories it produced (holding the original's `ref`). -/
structure Factory where
  ref : Nat
  code : Str
  orig_sym : Option Nat
deriving DecidableEq

/-- A patch as supplied to `register_patches`. -/
structure InputPatch where
  find : FindVal
  replacements : List Replacement
deriving DecidableEq

/-- A patch stored in the engine's `patches` list; `registrar_name` models the
`_registrar_name` property stamped on the patch at registration time. -/
structure StoredPatch where
  find : FindVal
  replacements : List Replacement
  registrar_name : Str
deriving DecidableEq

/-- JS `===` on two `find` values: strings compare by value, arrays and RegExp
objects by reference. -/
def js_find_eq : FindVal → FindVal → Bool
  | FindVal.one (Matcher.str s), FindVal.one (Matcher.str t) => s == t
  | FindVal.one (Matcher.re a), FindVal.one (Matcher.re b) => a == b
  | FindVal.arr a _, FindVal.arr b _ => a == b
  | _, _ => false

/-- The registration merge loop: find the first already-stored patch whose
`find` is `===` the new patch's `find` and push the new replacements onto it;
otherwise append the new patch at the end. -/
def merge_patch (ps : List StoredPatch) (p : StoredPatch) : List StoredPatch :=
  match ps with
  | [] => [p]
  | q :: rest =>
    if js_find_eq q.find p.find then
      { q with replacements := q.replacements ++ p.replacements } :: rest
    else q :: merge_patch rest p

/-- A user registrar object `{data, functions}`: `ref` is its own identity,
`data`/`functions` are the identities of the contained objects. -/
structure Registrar where
  ref : Nat
  data : Nat
  functions : Nat
deriving DecidableEq

/-- A property slot of `window.WebpackPatcher.Registrars` as installed by
`Object.defineProperty` (value plus descriptor flags). -/
structure Slot where
  value : Registrar
  writable : Bool
  configurable : Bool
deriving DecidableEq

/-- The `options` argument of `register`. -/
structure RegisterOptions where
  name : Option Str
  data : Option Nat
  functions : Option Nat
deriving DecidableEq

/-- JS falsiness of `options.name` (`undefined` or the empty string). -/
def falsy_name : Option Str → Bool
  | none => true
  | some [] => true
  | some (_ :: _) => false

/-- An event listener callback: identity plus whether invoking it throws. -/
structure Callback where
  cid : Nat
  fails : Bool
deriving DecidableEq

/-- The engine's `event_listeners` object with its three known keys. -/
structure EventListeners where
  webpack_detected : List Callback
  module_registered : List Callback
  module_patched : List Callback
deriving DecidableEq

def ev_webpack_detected : Str := "webpack_detected".toList

def ev_module_registered : Str := "module_registered".toList

def ev_module_patched : Str := "module_patched".toList

/-- A JS exception escaping an engine method: an explicit `throw new Error`
with a message, or a `TypeError` raised by an operation on an unsuitable
value. -/
inductive JsErr where
  | thrown (msg : Str)
  | typeError
deriving DecidableEq

/-- Decidable equality on `Except`, so concrete runs can be evaluated. -/
instance {ε α : Type} [DecidableEq ε] [DecidableEq α] : DecidableEq (Except ε α)
  | Except.ok x, Except.ok y =>
    if h : x = y then Decidable.isTrue (h ▸ rfl)
      else Decidable.isFalse (fun hc => h (Except.ok.inj hc))
  | Except.ok _, Except.error _ => Decidable.isFalse (fun hc => Except.noConfusion hc)
  | Except.error _, Except.ok _ => Decidable.isFalse (fun hc => Except.noConfusion hc)
  | Except.error x, Except.error y =>
    if h : x = y then Decidable.isTrue (h ▸ rfl)
      else Decidable.isFalse (fun hc => h (Except.error.inj hc))

/-- The own property names of `Object.prototype`: bracket lookup on a plain
object literal falls through to these, and each holds a truthy value
(a function, or the prototype object itself for `__proto__`). -/
def js_proto_keys : List Str :=
  ["constructor", "hasOwnProperty", "isPrototypeOf", "propertyIsEnumerable",
   "toLocaleString", "toString", "valueOf", "__defineGetter__", "__defineSetter__",
   "__lookupGetter__", "__lookupSetter__", "__proto__"].map String.toList

/-- Result of the JS lookup `this.event_listeners[event]`: one of the three
own keys (an array), a truthy value inherited from `Object.prototype`, or
`undefined`. -/
inductive EvLookup where
  | own (cbs : List Callback)
  | inherited
  | undef
deriving DecidableEq

/-- Property lookup `this.event_listeners[event]`: the object literal has
three own keys, and everything else falls through the prototype chain. -/
def lookup_event (ls : EventListeners) (e : Str) : EvLookup :=
  if e = ev_webpack_detected then EvLookup.own ls.webpack_detected
  else if e = ev_module_registered then EvLookup.own ls.module_registered
  else if e = ev_module_patched then EvLookup.own ls.module_patched
  else if e ∈ js_proto_keys then EvLookup.inherited
  else EvLookup.undef

/-- Write back one listener list under its event key. -/
def set_event (ls : EventListeners) (e : Str) (cbs : List Callback) : EventListeners :=
  if e = ev_webpack_detected then { ls with webpack_detected := cbs }
  else if e = ev_module_registered then { ls with module_registered := cbs }
  else if e = ev_module_patched then { ls with module_patched := cbs }
  else ls

/-- `WebpackPatcher.add_event_listener`: an `undefined` lookup (falsy guard)
is warned about and ignored; a truthy inherited value passes the guard and the
subsequent `.push` on a non-array throws a TypeError; an own key gets the
callback pushed. -/
def add_event_listener (ls : EventListeners) (e : Str) (cb : Callback) :
    Except JsErr EventListeners :=
  match lookup_event ls e with
  | EvLookup.undef => Except.ok ls
  | EvLookup.inherited => Except.error JsErr.typeError
  | EvLookup.own cbs => Except.ok (set_event ls e (cbs ++ [cb]))

/-- `WebpackPatcher.remove_event_listener`: splice out the first occurrence of
the callback if present (`indexOf` + `splice`); an inherited lookup passes the
falsy guard and `.indexOf` on the non-array throws a TypeError. -/
def remove_event_listener (ls : EventListeners) (e : Str) (cb : Callback) :
    Except JsErr EventListeners :=
  match lookup_event ls e with
  | EvLookup.undef => Except.ok ls
  | EvLookup.inherited => Except.error JsErr.typeError
  | EvLookup.own cbs => Except.ok (if cb ∈ cbs then set_event ls e (cbs.erase cb) else ls)

/-- Invoking one listener: throws iff its `fails` flag is set. -/
def invoke_listener (cb : Callback) : Except Unit Unit :=
  if cb.fails then Except.error () else Except.ok ()

/-- `WebpackPatcher._emit_event`: dispatch to every listener of a known event
in subscription order, catching (and logging) each listener's own exception;
returns the trace of invoked callback identities.  An inherited lookup passes
the falsy guard and the `for...of` over a non-iterable throws a TypeError. -/
def emit_event (ls : EventListeners) (e : Str) : Except JsErr (List Nat) :=
  match lookup_event ls e with
  | EvLookup.undef => Except.ok []
  | EvLookup.inherited => Except.error JsErr.typeError
  | EvLookup.own cbs =>
    Except.ok (cbs.foldl (fun acc cb =>
      match invoke_listener cb with
      | Except.ok _ => acc ++ [cb.cid]
      | Except.error _ => acc ++ [cb.cid]) [])

/-- Engine construction options together with the oracles for the JS-level
behaviors the embedding keeps opaque (RegExp tests, replacer callbacks, and
whether dynamic compilation of a given source text succeeds). -/
structure Config where
  cache_enabled : Bool
  use_eval : Bool
  placeholder_id : Str
  compile_ok : Str → Bool
  regex_test : Nat → Str → Bool
  fn_eval : Nat → Str → Str

/-- The `self` placeholder token of an engine instance. -/
def self_placeholder (pid : Str) : Str :=
  "WEBPACKPATCHER_PLACEHOLDER_SELF_".toList ++ pid

/-- The `functions` placeholder token. -/
def functions_placeholder (pid : Str) : Str :=
  "WEBPACKPATCHER_PLACEHOLDER_FUNCTIONS_".toList ++ pid

/-- The `data` placeholder token. -/
def data_placeholder (pid : Str) : Str :=
  "WEBPACKPATCHER_PLACEHOLDER_DATA_".toList ++ pid

/-- The concrete expression substituted for the `self` token. -/
def registrar_ref_expr (name : Str) : Str :=
  "window.WebpackPatcher.Registrars[\"".toList ++ name ++ "\"]".toList

/-- The concrete expression substituted for the `functions` token. -/
def registrar_functions_expr (name : Str) : Str :=
  registrar_ref_expr name ++ ".functions".toList

/-- The concrete expression substituted for the `data` token. -/
def registrar_data_expr (name : Str) : Str :=
  registrar_ref_expr name ++ ".data".toList

/-- The `placeholder_replacements` table of `_apply_patch`, in the object's
insertion order (self, functions, data). -/
def placeholder_replacements (pid name : Str) : List (Str × Str) :=
  [(self_placeholder pid, registrar_ref_expr name),
   (functions_placeholder pid, registrar_functions_expr name),
   (data_placeholder pid, registrar_data_expr name)]

/-- The placeholder pass of `_apply_patch`: `replaceAll` of each token by its
registrar reference expression, in table order.  The replacement value is a
plain string, so ECMAScript `GetSubstitution` applies: `$`-escapes inside the
expression (for instance from the registrar name) are expanded. -/
def resolve_placeholders (pid name code : Str) : Str :=
  (placeholder_replacements pid name).foldl (fun c p => strReplaceAllSubst p.1 p.2 c) code

/-- The text handed to `eval`: source-map wrapper around the patched code. -/
def eval_source (module_id : Nat) (code : Str) : Str :=
  "// Webpack Module ".toList ++ (Nat.repr module_id).toList
    ++ " - Patched by WebpackPatcher\n0,".toList ++ code
    ++ "\n//# sourceURL=WebpackModule".toList ++ (Nat.repr module_id).toList

/-- The text handed to `new Function`. -/
def newfn_source (code : Str) : Str :=
  "return (".toList ++ code ++ ")".toList

/-- The source text actually compiled, depending on `use_eval`. -/
def compile_source (cfg : Config) (module_id : Nat) (code : Str) : Str :=
  if cfg.use_eval then eval_source module_id code else newfn_source code

/-- The replacement text one rule substitutes for an occurrence: literal text,
or the callback applied to the matched text (for a string pattern the matched
text is the pattern itself). -/
def repl_text (cfg : Config) (rv : ReplaceVal) (matched : Str) : Str :=
  match rv with
  | ReplaceVal.str r => r
  | ReplaceVal.fn ref => cfg.fn_eval ref matched

/-- One iteration of the `matches_and_replacements` loop of `_apply_patch`:
pick `replace`/`replaceAll` from the `global` flag, substitute, and report
whether the replacer fired at least once. -/
def apply_rule (cfg : Config) (code : Str) (mr : Replacement) : Str × Bool :=
  let rtext := repl_text cfg mr.replace mr.mtch
  let occurred := containsSub mr.mtch code
  let code' := if mr.global then strReplaceAll mr.mtch rtext code
               else strReplaceFirst mr.mtch rtext code
  (code', occurred)

/-- The whole rule loop: each rule is applied to the cumulative text of the
previous rules; the second component counts rules that made a substitution
(`total_replacements`). -/
def apply_rules (cfg : Config) (mars : List Replacement) (code : Str) : Str × Nat :=
  mars.foldl (fun acc mr =>
    let r := apply_rule cfg acc.1 mr
    (r.1, acc.2 + if r.2 then 1 else 0)) (code, 0)

/-- `WebpackPatcher._apply_patch`: run the rule loop over the factory text; if
no rule substituted anything, or compiling the resolved text fails, return the
original factory and text unchanged (the JS try/catch); otherwise resolve
placeholders, compile, and return the fresh factory, the resolved text, and
the bumped allocation counter. -/
def apply_patch (cfg : Config) (next_ref : Nat) (factory : Factory) (factory_str : Str)
    (mars : List Replacement) (module_id : Nat) (registrar_name : Str) :
    Factory × Str × Nat :=
  let res := apply_rules cfg mars factory_str
  if res.2 = 0 then (factory, factory_str, next_ref)
  else
    let resolved := resolve_placeholders cfg.placeholder_id registrar_name res.1
    if cfg.compile_ok (compile_source cfg module_id resolved) then
      ({ ref := next_ref, code := resolved, orig_sym := none }, resolved, next_ref + 1)
    else (factory, factory_str, next_ref)

/-- `WebpackPatcher._matches_identifier`: substring containment for strings,
`RegExp.test` for regexes. -/
def matches_identifier (cfg : Config) (value : Str) (ident : Matcher) : Bool :=
  match ident with
  | Matcher.str s => containsSub s value
  | Matcher.re ref => cfg.regex_test ref value

/-- The `find` value viewed as `Array.isArray(find) ? find : [find]`. -/
def find_list : FindVal → List Matcher
  | FindVal.one m => [m]
  | FindVal.arr _ ms => ms

/-- `WebpackPatcher._check_pattern_match`: some `find` entry matches. -/
def check_pattern_match (cfg : Config) (factory_str : Str) (p : StoredPatch) : Bool :=
  (find_list p.find).any (matches_identifier cfg factory_str)

/-- Mutable engine state of a `WebpackPatcher` instance plus the global
`window.WebpackPatcher.Registrars` slots; `next_ref` is the allocator for
fresh JS object identities; `event_log` records emitted engine events
(name, module id). -/
structure PState where
  patches : List StoredPatch
  patched_modules : List Nat
  module_factories : Option (List (Nat × Factory))
  webpack_require : Option Nat
  webpack_cache : Option Nat
  hooked : Bool
  factory_string_cache : List (Nat × Str)
  registrar_slots : List (Str × Slot)
  event_listeners : EventListeners
  event_log : List (Str × Nat)
  next_ref : Nat
deriving DecidableEq

/-- Association list lookup (first binding wins, like a JS plain object). -/
def assocGet {κ ν : Type} [DecidableEq κ] (m : List (κ × ν)) (k : κ) : Option ν :=
  match m with
  | [] => none
  | (k', v) :: rest => if k' = k then some v else assocGet rest k

/-- Association list update/insert. -/
def assocSet {κ ν : Type} [DecidableEq κ] (m : List (κ × ν)) (k : κ) (v : ν) : List (κ × ν) :=
  match m with
  | [] => [(k, v)]
  | (k', v') :: rest => if k' = k then (k, v) :: rest else (k', v') :: assocSet rest k v

/-- The freshly constructed engine state (the `WebpackPatcher` constructor). -/
def initial_pstate : PState :=
  { patches := [], patched_modules := [], module_factories := none,
    webpack_require := none, webpack_cache := none, hooked := false,
    factory_string_cache := [], registrar_slots := [],
    event_listeners := { webpack_detected := [], module_registered := [], module_patched := [] },
    event_log := [], next_ref := 0 }

/-- `WebpackPatcher._get_factory_string`: cached `factory.toString()` when
`enable_cache` is on, otherwise a direct stringification. -/
def get_factory_string (cfg : Config) (st : PState) (module_id : Nat) (factory : Factory) :
    Str × PState :=
  if cfg.cache_enabled then
    match assocGet st.factory_string_cache module_id with
    | some s => (s, st)
    | none =>
      (factory.code,
        { st with factory_string_cache := assocSet st.factory_string_cache module_id factory.code })
  else (factory.code, st)

/-- Accumulator of the patch loop inside `_get_or_patch_factory`
(`current_factory`, `current_factory_str`, `any_patches_applied`, allocator). -/
structure LoopAcc where
  cur_factory : Factory
  cur_code : Str
  applied : Bool
  next_ref : Nat
deriving DecidableEq

/-- One iteration of the patch loop: skip non-matching patches; on a match,
apply the patch and adopt its result iff it produced a different object
(`patch_result.factory !== current_factory`, modeled by `ref` disequality). -/
def loop_step (cfg : Config) (module_id : Nat) (acc : LoopAcc) (p : StoredPatch) : LoopAcc :=
  if check_pattern_match cfg acc.cur_code p then
    let r := apply_patch cfg acc.next_ref acc.cur_factory acc.cur_code
               p.replacements module_id p.registrar_name
    if r.1.ref = acc.cur_factory.ref then { acc with next_ref := r.2.2 }
    else { cur_factory := r.1, cur_code := r.2.1, applied := true, next_ref := r.2.2 }
  else acc

/-- The full patch loop of `_get_or_patch_factory`. -/
def patch_loop (cfg : Config) (module_id : Nat) (ps : List StoredPatch) (acc : LoopAcc) : LoopAcc :=
  ps.foldl (loop_step cfg module_id) acc

/-- `WebpackPatcher._get_or_patch_factory`: bail out if the factory is one the
engine already produced (`SYM_ORIGINAL_FACTORY` set) or the module was already
attempted; otherwise run every registered patch over the accumulating text,
and — regardless of whether anything applied — mark the module attempted.  On
success the final factory is stamped with the original's identity, stored back
into the raw factory map, and `module_patched` is emitted. -/
def get_or_patch (cfg : Config) (st : PState) (module_id : Nat) (factory : Factory) :
    PState × Factory :=
  if factory.orig_sym.isSome then (st, factory)
  else if module_id ∈ st.patched_modules then (st, factory)
  else
    let fs := get_factory_string cfg st module_id factory
    let st1 := fs.2
    let res := patch_loop cfg module_id st1.patches
      { cur_factory := factory, cur_code := fs.1, applied := false, next_ref := st1.next_ref }
    if res.applied then
      let cf := { res.cur_factory with orig_sym := some factory.ref }
      ({ st1 with
          module_factories := some (assocSet (st1.module_factories.getD []) module_id cf)
          next_ref := res.next_ref
          patched_modules := module_id :: st1.patched_modules
          event_log := st1.event_log ++ [(ev_module_patched, module_id)] }, cf)
    else
      ({ st1 with
          next_ref := res.next_ref
          patched_modules := module_id :: st1.patched_modules }, res.cur_factory)

/-- A factory proxy from `_create_factory_proxy`: it closes over the module id
and the wrapped (target) factory. -/
structure FactoryProxy where
  module_id : Nat
  target : Factory
deriving DecidableEq

/-- `_create_factory_proxy`. -/
def create_factory_proxy (module_id : Nat) (factory : Factory) : FactoryProxy :=
  { module_id := module_id, target := factory }

/-- The proxy's `apply` trap: every invocation routes through
`_get_or_patch_factory` on the stored target, and the returned factory is what
actually runs. -/
def proxy_apply (cfg : Config) (st : PState) (p : FactoryProxy) : PState × Factory :=
  get_or_patch cfg st p.module_id p.target

/-- Result of the JS lookup `window.WebpackPatcher.Registrars[name]`: an own
slot, a truthy value inherited from `Object.prototype`, or `undefined`. -/
inductive RegLookup where
  | own (s : Slot)
  | inherited
  | undef
deriving DecidableEq

/-- Property lookup on the `Registrars` object literal: own slots shadow the
prototype; otherwise the `Object.prototype` members are reached. -/
def registrars_lookup (slots : List (Str × Slot)) (name : Str) : RegLookup :=
  match assocGet slots name with
  | some s => RegLookup.own s
  | none => if name ∈ js_proto_keys then RegLookup.inherited else RegLookup.undef

/-- The value `register` hands back to the caller: a registrar object, or an
`Object.prototype` member leaked through `Registrars[name]` when the name is
an inherited key. -/
inductive RegResult where
  | registrar (r : Registrar)
  | inheritedObj
deriving DecidableEq

/-- `WebpackPatcher.register_patches` (the engine-level one): throws when
`options.name` is falsy; the guard `!Registrars[name]` sees any truthy lookup
— an own slot or an `Object.prototype` member — as existing, so it creates the
registrar slot (non-writable, non-configurable) only when the lookup is
`undefined`; stamps and merges each patch into the patch list; hooks webpack
if not yet hooked; returns `Registrars[name]`, which for an inherited name is
the inherited object, never a registrar. -/
def register_patches (st : PState) (opts : RegisterOptions) (patches : List InputPatch)
    (existing_registrar : Option Registrar) : Except JsErr (PState × RegResult) :=
  if falsy_name opts.name then Except.error (JsErr.thrown "Registrar name is required".toList)
  else
    let rname := opts.name.getD []
    let stA :=
      match registrars_lookup st.registrar_slots rname with
      | RegLookup.own _ => st
      | RegLookup.inherited => st
      | RegLookup.undef =>
        match existing_registrar with
        | some r =>
          let slot : Slot := { value := r, writable := false, configurable := false }
          { st with registrar_slots := assocSet st.registrar_slots rname slot }
        | none =>
          let robj : Registrar :=
            { ref := st.next_ref
              data := match opts.data with | some d => d | none => st.next_ref + 1
              functions := match opts.functions with | some f => f | none => st.next_ref + 2 }
          { st with
            registrar_slots :=
              assocSet st.registrar_slots rname
                { value := robj, writable := false, configurable := false }
            next_ref := st.next_ref + 3 }
    let newPatches :=
      patches.foldl (fun acc p =>
        merge_patch acc { find := p.find, replacements := p.replacements, registrar_name := rname })
        stA.patches
    let stB := { stA with patches := newPatches }
    let stC := if stB.hooked then stB else { stB with hooked := true }
    match registrars_lookup stC.registrar_slots rname with
    | RegLookup.own s => Except.ok (stC, RegResult.registrar s.value)
    | RegLookup.inherited => Except.ok (stC, RegResult.inheritedObj)
    | RegLookup.undef => Except.ok (stC, RegResult.inheritedObj)

/-- The accepted assignment to the webpack modules slot (the body of the
`set` interceptor after the duplicate/marker/filter checks pass): capture the
require function and the raw factory map and emit `webpack_detected`.  The
attribute-interception mechanics themselves are browser-runtime behavior
outside the embedding. -/
def detect_webpack (st : PState) (require_ref : Nat) (mods : List (Nat × Factory)) : PState :=
  { st with webpack_require := some require_ref, module_factories := some mods,
            event_log := st.event_log ++ [(ev_webpack_detected, 0)] }

/-- The accepted assignment to the webpack cache slot. -/
def detect_cache (st : PState) (cache_ref : Nat) : PState :=
  { st with webpack_cache := some cache_ref }

/-- One buffered `register` call of `WebpackPatchRegistrar` (options, patches,
and the registrar object created at buffer time). -/
structure BufferedReg where
  opts : RegisterOptions
  patches : List InputPatch
  registrar : Registrar
deriving DecidableEq

/-- State of the `WebpackPatchRegistrar` helper. -/
structure RegState where
  patcher : Option PState
  patch_buffer : List BufferedReg
  event_listener_buffer : List (Str × Callback)
  is_flushing : Bool
  next_ref : Nat
deriving DecidableEq

/-- A fresh `WebpackPatchRegistrar(null)`. -/
def initial_regstate : RegState :=
  { patcher := none, patch_buffer := [], event_listener_buffer := [],
    is_flushing := false, next_ref := 1000 }

/-- `WebpackPatchRegistrar.add_event_listener`: forward when the patcher
exists, otherwise buffer the subscription. -/
def reg_add_event_listener (rs : RegState) (e : Str) (cb : Callback) :
    Except JsErr RegState :=
  match rs.patcher with
  | some p =>
    match add_event_listener p.event_listeners e cb with
    | Except.ok ls => Except.ok { rs with patcher := some { p with event_listeners := ls } }
    | Except.error err => Except.error err
  | none => Except.ok { rs with event_listener_buffer := rs.event_listener_buffer ++ [(e, cb)] }

/-- `WebpackPatchRegistrar.remove_event_listener`: forward when the patcher
exists (a TypeError from the engine propagates); before attachment the call
does nothing (removals are not buffered). -/
def reg_remove_event_listener (rs : RegState) (e : Str) (cb : Callback) :
    Except JsErr RegState :=
  match rs.patcher with
  | some p =>
    match remove_event_listener p.event_listeners e cb with
    | Except.ok ls => Except.ok { rs with patcher := some { p with event_listeners := ls } }
    | Except.error err => Except.error err
  | none => Except.ok rs

/-- `WebpackPatchRegistrar.register_patches`: forward when the patcher exists;
otherwise create the registrar object now, buffer the call, and hand the
object back to the caller. -/
def reg_register (rs : RegState) (opts : RegisterOptions) (patches : List InputPatch) :
    Except JsErr (RegState × RegResult) :=
  match rs.patcher with
  | some p =>
    match register_patches p opts patches none with
    | Except.ok pr => Except.ok ({ rs with patcher := some pr.1 }, pr.2)
    | Except.error e => Except.error e
  | none =>
    let robj : Registrar :=
      { ref := rs.next_ref,
        data := match opts.data with | some d => d | none => rs.next_ref + 1,
        functions := match opts.functions with | some f => f | none => rs.next_ref + 2 }
    Except.ok
      ({ rs with
         patch_buffer := rs.patch_buffer ++ [{ opts := opts, patches := patches, registrar := robj }]
         next_ref := rs.next_ref + 3 }, RegResult.registrar robj)

/-- Replay of the buffered `register` calls (each reusing the registrar object
created at buffer time); a throwing registration propagates, as in
`_flush_buffers` which has no try/catch. -/
def flush_patches (p : PState) : List BufferedReg → Except JsErr PState
  | [] => Except.ok p
  | b :: rest =>
    match register_patches p b.opts b.patches (some b.registrar) with
    | Except.ok pr => flush_patches pr.1 rest
    | Except.error e => Except.error e

/-- Replay of the buffered event subscriptions, in FIFO order; a TypeError
from a buffered subscription on an inherited key propagates (no try/catch in
`_flush_buffers`). -/
def flush_listeners (p : PState) : List (Str × Callback) → Except JsErr PState
  | [] => Except.ok p
  | ec :: rest =>
    match add_event_listener p.event_listeners ec.1 ec.2 with
    | Except.ok ls => flush_listeners { p with event_listeners := ls } rest
    | Except.error err => Except.error err

/-- `WebpackPatchRegistrar.set_patcher` followed by `_flush_buffers`: a second
attachment is ignored with a warning; otherwise buffered patches are replayed
first, then buffered listeners, then both buffers are discarded.  An exception
raised by any replayed call escapes `set_patcher`. -/
def set_patcher (rs : RegState) (p : PState) : Except JsErr RegState :=
  match rs.patcher with
  | some _ => Except.ok rs
  | none =>
    if rs.is_flushing then Except.ok { rs with patcher := some p }
    else
      match flush_patches p rs.patch_buffer with
      | Except.error e => Except.error e
      | Except.ok p1 =>
        match flush_listeners p1 rs.event_listener_buffer with
        | Except.error e => Except.error e
        | Except.ok p2 =>
          Except.ok { rs with
                      patcher := some p2
                      patch_buffer := []
                      event_listener_buffer := []
                      is_flushing := false }

/-- A JS value as returned by the `window.WebpackPatcher` accessors. -/
inductive JsValue where
  | null
  | fnRef (r : Nat)
  | factories (m : List (Nat × Factory))
  | cacheWrapper
deriving DecidableEq

/-- The `webpackRequire` accessor: `this.patcher?.webpack_require || null`. -/
def get_webpackRequire (rs : RegState) : JsValue :=
  match rs.patcher with
  | none => JsValue.null
  | some p =>
    match p.webpack_require with
    | none => JsValue.null
    | some r => JsValue.fnRef r

/-- The `moduleFactories` accessor: `this.patcher?.module_factories || null`. -/
def get_moduleFactories (rs : RegState) : JsValue :=
  match rs.patcher with
  | none => JsValue.null
  | some p =>
    match p.module_factories with
    | none => JsValue.null
    | some m => JsValue.factories m

/-- The `moduleCache` accessor: `get webpack_cache() {return this._Webpack_cache}` —
it always hands out the interaction wrapper object, never null. -/
def get_moduleCache (_ : RegState) : JsValue :=
  JsValue.cacheWrapper

/-- The wrapper's `getAll`: `this.patcher?.webpack_cache ? {...} : null`
(the detected cache's identity stands in for the shallow copy). -/
def cache_wrapper_getAll (rs : RegState) : Option Nat :=
  match rs.patcher with
  | none => none
  | some p => p.webpack_cache

/-! Concrete instances used by witnesses and counterexamples -/

/-- A benign configuration: compilation always succeeds, regex refs never
match, callback replacers return the matched text. -/
def ex_cfg : Config :=
  { cache_enabled := false, use_eval := true, placeholder_id := "ab".toList,
    compile_ok := fun _ => true, regex_test := fun _ _ => false, fn_eval := fun _ m => m }

/-- A configuration whose dynamic compilation always throws. -/
def ex_cfg_nocompile : Config :=
  { cache_enabled := false, use_eval := true, placeholder_id := "ab".toList,
    compile_ok := fun _ => false, regex_test := fun _ _ => false, fn_eval := fun _ m => m }

def ex_cb : Callback := { cid := 7, fails := false }

def ex_cb_bad : Callback := { cid := 8, fails := true }

def ex_ls : EventListeners :=
  { webpack_detected := [ex_cb_bad], module_registered := [], module_patched := [ex_cb] }

/-- A registrar helper already attached to a fresh (pre-detection) engine. -/
def ex_rs_predetect : RegState :=
  { patcher := some initial_pstate, patch_buffer := [], event_listener_buffer := [],
    is_flushing := false, next_ref := 1000 }

/-- An unpatched module factory. -/
def ex_factory : Factory :=
  { ref := 100, code := "function(){return foo(1)+bar(2)}".toList, orig_sym := none }

def ex_repl_a : Replacement :=
  { mtch := "x".toList, replace := ReplaceVal.str "y".toList, global := false }

def ex_repl_b : Replacement :=
  { mtch := "u".toList, replace := ReplaceVal.str "v".toList, global := false }

/-- A patch whose `find` is the array object #1 `["x"]`. -/
def ex_patch_arr1 : InputPatch :=
  { find := FindVal.arr 1 [Matcher.str "x".toList], replacements := [ex_repl_a] }

/-- A patch whose `find` is the distinct array object #2 with identical
contents `["x"]`. -/
def ex_patch_arr2 : InputPatch :=
  { find := FindVal.arr 2 [Matcher.str "x".toList], replacements := [ex_repl_b] }

def ex_opts_A : RegisterOptions :=
  { name := some "A".toList, data := none, functions := none }

def ex_opts_B : RegisterOptions :=
  { name := some "A".toList, data := some 500, functions := some 501 }

/-- Chaining example, rule 1: rewrite `b` to `XY`. -/
def c3r1 : Replacement :=
  { mtch := "b".toList, replace := ReplaceVal.str "XY".toList, global := false }

/-- Chaining example, rule 2: its match `XY` exists only in rule 1's output. -/
def c3r2 : Replacement :=
  { mtch := "XY".toList, replace := ReplaceVal.str "Z".toList, global := false }

/-- Chaining example, patch 1: activates on `a`, rewrites `b` to `XY`. -/
def c3p1 : StoredPatch :=
  { find := FindVal.one (Matcher.str "a".toList), replacements := [c3r1],
    registrar_name := "A".toList }

/-- Chaining example, patch 2: activates on `XY`, which only exists in patch
1's output. -/
def c3p2 : StoredPatch :=
  { find := FindVal.one (Matcher.str "XY".toList), replacements := [c3r2],
    registrar_name := "A".toList }

/-- Chaining example: initial loop accumulator over the text `abc`. -/
def c3acc : LoopAcc :=
  { cur_factory := ex_factory, cur_code := "abc".toList, applied := false, next_ref := 0 }

/-- Factory text containing the `functions` placeholder token of the engine
instance whose `placeholder_id` is `ab`. -/
def c4_fs : Str := "q WEBPACKPATCHER_PLACEHOLDER_FUNCTIONS_ab".toList

/-- A rule that fires on `c4_fs` (so the patch application succeeds). -/
def c4_rule : Replacement :=
  { mtch := "q".toList, replace := ReplaceVal.str "z".toList, global := false }

/-- The expected resolved source for registrar name `myscript`. -/
def c4_result_code : Str :=
  "z window.WebpackPatcher.Registrars[\"myscript\"].functions".toList

def c4_result_factory : Factory :=
  { ref := 0, code := c4_result_code, orig_sym := none }

/-- An adversarial registrar name: the engine's own `data` placeholder token. -/
def c4ce_name : Str := data_placeholder ("ab".toList)

/-- The original factory of the stale-proxy scenario. -/
def c1ce_factory : Factory := { ref := 100, code := "abc".toList, orig_sym := none }

/-- Engine state holding one patch (find `a`, rewrite `b` to `XY`). -/
def c1ce_st : PState := { initial_pstate with patches := [c3p1] }

def c5w_reg : Registrar := { ref := 1, data := 2, functions := 3 }

def c5w_slot : Slot := { value := c5w_reg, writable := false, configurable := false }

/-- An engine state with an existing registrar slot under name `A`. -/
def c5w_st : PState :=
  { initial_pstate with registrar_slots := [("A".toList, c5w_slot)] }

/-! Helper lemmas -/

theorem emit_fold_trace (cbs : List Callback) (acc : List Nat) :
    cbs.foldl (fun acc cb =>
      match invoke_listener cb with
      | Except.ok _ => acc ++ [cb.cid]
      | Except.error _ => acc ++ [cb.cid]) acc = acc ++ cbs.map Callback.cid := by
  induction cbs generalizing acc with
  | nil => simp
  | cons cb rest ih =>
    simp only [List.foldl_cons, List.map_cons]
    cases invoke_listener cb <;> rw [ih] <;> simp

/-- Dispatch on a known (own-key) event invokes every listener, in order,
whether or not earlier listeners throw. -/
theorem emit_event_trace (ls : EventListeners) (e : Str) (cbs : List Callback)
    (h : lookup_event ls e = EvLookup.own cbs) :
    emit_event ls e = Except.ok (cbs.map Callback.cid) := by
  simp [emit_event, h, emit_fold_trace]

/-- C10 counterexample: `constructor` is not one of the three known events,
yet `add_event_listener` does not ignore it — the lookup reaches the truthy
`Object.prototype.constructor`, the falsy guard passes, and `.push` on that
non-array throws a TypeError; emitting it throws as well instead of invoking
no callbacks. -/
theorem c10_inherited_event_counterexample :
    add_event_listener ex_ls ("constructor".toList) ex_cb = Except.error JsErr.typeError ∧
      emit_event ex_ls ("constructor".toList) = Except.error JsErr.typeError := by
  constructor <;> decide

/-- C10 amended: for an unknown event name whose lookup is `undefined` (not an
`Object.prototype` key), add/remove return with the subscription state — and
the known events' listener lists — unchanged and emit invokes no callbacks;
but for a name inherited from `Object.prototype` (`constructor`, `toString`,
…) the truthy inherited value passes the guard and add/remove/emit all throw a
TypeError. -/
theorem c10_unknown_event_amended :
    (∀ (ls : EventListeners) (e : Str) (cb : Callback), lookup_event ls e = EvLookup.undef →
      add_event_listener ls e cb = Except.ok ls ∧
        remove_event_listener ls e cb = Except.ok ls ∧
        emit_event ls e = Except.ok []) ∧
    (∀ (ls : EventListeners) (e : Str) (cb : Callback), lookup_event ls e = EvLookup.inherited →
      add_event_listener ls e cb = Except.error JsErr.typeError ∧
        remove_event_listener ls e cb = Except.error JsErr.typeError ∧
        emit_event ls e = Except.error JsErr.typeError) := by
  constructor <;> intro ls e cb h <;>
    exact ⟨by simp [add_event_listener, h], by simp [remove_event_listener, h],
      by simp [emit_event, h]⟩

theorem c10_unknown_event_amended_witness :
    (add_event_listener ex_ls ("bogus".toList) ex_cb = Except.ok ex_ls ∧
      remove_event_listener ex_ls ("bogus".toList) ex_cb = Except.ok ex_ls ∧
      emit_event ex_ls ("bogus".toList) = Except.ok []) ∧
    (add_event_listener ex_ls ("toString".toList) ex_cb = Except.error JsErr.typeError ∧
      remove_event_listener ex_ls ("toString".toList) ex_cb = Except.error JsErr.typeError ∧
      emit_event ex_ls ("toString".toList) = Except.error JsErr.typeError) :=
  ⟨c10_unknown_event_amended.1 ex_ls ("bogus".toList) ex_cb (by decide),
   c10_unknown_event_amended.2 ex_ls ("toString".toList) ex_cb (by decide)⟩

/-- C7 counterexample: the claim says no public engine operation ever
surfaces a thrown error, explicitly including a `register` call whose options
lack a name — but `register_patches` throws `Error("Registrar name is
required")` for exactly that input, and the public `register` binding forwards
it uncaught. -/
theorem c7_register_throws_counterexample :
    register_patches initial_pstate { name := none, data := none, functions := none } [] none
      = Except.error (JsErr.thrown "Registrar name is required".toList) := by
  rfl

/-- C7 amended: engine operations absorb internal failures — event dispatch
on a known (own-key) event catches each listener's exception and still invokes
every listener in order, and an unknown event name whose lookup is `undefined`
dispatches to nobody — with two exceptions the code surfaces to the caller:
`register` throws `Error("Registrar name is required")` exactly when
`options.name` is missing or empty, and listener operations on names inherited
from `Object.prototype` (e.g. `constructor`) throw a TypeError because the
truthy inherited value passes the existence guard. -/
theorem c7_error_absorption_amended :
    (∀ (st : PState) (opts : RegisterOptions) (patches : List InputPatch)
        (er : Option Registrar),
      (falsy_name opts.name = true →
        register_patches st opts patches er
          = Except.error (JsErr.thrown "Registrar name is required".toList)) ∧
      (falsy_name opts.name = false →
        ∃ st' r, register_patches st opts patches er = Except.ok (st', r))) ∧
    (∀ (ls : EventListeners) (e : Str) (cbs : List Callback),
      lookup_event ls e = EvLookup.own cbs →
      emit_event ls e = Except.ok (cbs.map Callback.cid)) ∧
    (∀ (ls : EventListeners) (e : Str), lookup_event ls e = EvLookup.undef →
      emit_event ls e = Except.ok []) ∧
    (∀ (ls : EventListeners) (e : Str) (cb : Callback),
      lookup_event ls e = EvLookup.inherited →
      add_event_listener ls e cb = Except.error JsErr.typeError ∧
        emit_event ls e = Except.error JsErr.typeError) := by
  refine ⟨?_, ?_, ?_, ?_⟩
  · intro st opts patches er
    constructor
    · intro h; simp [register_patches, h]
    · intro h
      simp only [register_patches, h, Bool.false_eq_true, if_false]
      split
      · exact ⟨_, _, rfl⟩
      · exact ⟨_, _, rfl⟩
      · exact ⟨_, _, rfl⟩
  · intro ls e cbs h; exact emit_event_trace ls e cbs h
  · intro ls e h; simp [emit_event, h]
  · intro ls e cb h
    exact ⟨by simp [add_event_listener, h], by simp [emit_event, h]⟩

theorem c7_error_absorption_amended_witness :
    register_patches initial_pstate { name := some [], data := none, functions := none } [] none
        = Except.error (JsErr.thrown "Registrar name is required".toList) ∧
      emit_event ex_ls ev_webpack_detected = Except.ok [8] ∧
      add_event_listener ex_ls ("valueOf".toList) ex_cb = Except.error JsErr.typeError :=
  ⟨(c7_error_absorption_amended.1 initial_pstate
      { name := some [], data := none, functions := none } [] none).1 (by decide),
    by
      have h := c7_error_absorption_amended.2.1 ex_ls ev_webpack_detected [ex_cb_bad] (by decide)
      simpa using h,
    (c7_error_absorption_amended.2.2.2 ex_ls ("valueOf".toList) ex_cb (by decide)).1⟩

/-- C8 counterexample: before detection, `webpackRequire` and
`moduleFactories` are indeed null, but `moduleCache` returns the cache
interaction wrapper object — not an absent value — refuting the claim that
each of the three accessors is absent until detection fires. -/
theorem c8_module_cache_counterexample :
    get_moduleCache ex_rs_predetect = JsValue.cacheWrapper ∧
      get_moduleCache ex_rs_predetect ≠ JsValue.null ∧
      get_webpackRequire ex_rs_predetect = JsValue.null ∧
      get_moduleFactories ex_rs_predetect = JsValue.null := by
  refine ⟨rfl, by decide, rfl, rfl⟩

/-- C8 amended: `webpackRequire` and `moduleFactories` return null before
detection (whether the engine is unattached or attached-but-undetected) and
the detected objects afterwards; `moduleCache` always returns the cache
wrapper object, whose `getAll` is null before cache detection and exposes the
detected cache afterwards. -/
theorem c8_accessors_amended :
    (∀ rs : RegState, rs.patcher = none →
      get_webpackRequire rs = JsValue.null ∧ get_moduleFactories rs = JsValue.null) ∧
    (∀ (rs : RegState) (p : PState), rs.patcher = some p →
      (p.webpack_require = none → get_webpackRequire rs = JsValue.null) ∧
      (p.module_factories = none → get_moduleFactories rs = JsValue.null)) ∧
    (∀ (rs : RegState) (p : PState) (r : Nat) (m : List (Nat × Factory)),
      get_webpackRequire { rs with patcher := some (detect_webpack p r m) } = JsValue.fnRef r ∧
      get_moduleFactories { rs with patcher := some (detect_webpack p r m) }
        = JsValue.factories m) ∧
    (∀ rs : RegState, get_moduleCache rs = JsValue.cacheWrapper) ∧
    (∀ (rs : RegState) (p : PState), rs.patcher = some p → p.webpack_cache = none →
      cache_wrapper_getAll rs = none) ∧
    (∀ (rs : RegState) (p : PState) (c : Nat),
      cache_wrapper_getAll { rs with patcher := some (detect_cache p c) } = some c) := by
  refine ⟨?_, ?_, ?_, ?_, ?_, ?_⟩
  · intro rs h; exact ⟨by simp [get_webpackRequire, h], by simp [get_moduleFactories, h]⟩
  · intro rs p h
    exact ⟨fun h2 => by simp [get_webpackRequire, h, h2],
           fun h2 => by simp [get_moduleFactories, h, h2]⟩
  · intro rs p r m
    exact ⟨by simp [get_webpackRequire, detect_webpack],
           by simp [get_moduleFactories, detect_webpack]⟩
  · intro rs; rfl
  · intro rs p h h2; simp [cache_wrapper_getAll, h, h2]
  · intro rs p c; simp [cache_wrapper_getAll, detect_cache]

theorem c8_accessors_amended_witness :
    (get_webpackRequire initial_regstate = JsValue.null ∧
      get_moduleFactories initial_regstate = JsValue.null) ∧
    get_webpackRequire { ex_rs_predetect with patcher := some (detect_webpack initial_pstate 55 []) }
      = JsValue.fnRef 55 ∧
    cache_wrapper_getAll { ex_rs_predetect with patcher := some (detect_cache initial_pstate 77) }
      = some 77 :=
  ⟨c8_accessors_amended.1 initial_regstate (by decide),
    (c8_accessors_amended.2.2.1 ex_rs_predetect initial_pstate 55 []).1,
    c8_accessors_amended.2.2.2.2.2 ex_rs_predetect initial_pstate 77⟩

theorem lookup_set_event (ls : EventListeners) (e : Str) (v cbs : List Callback)
    (h : lookup_event ls e = EvLookup.own cbs) :
    lookup_event (set_event ls e v) e = EvLookup.own v := by
  unfold lookup_event set_event at *
  split_ifs at * <;> simp_all

theorem add_event_listener_own (ls : EventListeners) (e : Str) (cb : Callback)
    (cbs : List Callback) (h : lookup_event ls e = EvLookup.own cbs) :
    add_event_listener ls e cb = Except.ok (set_event ls e (cbs ++ [cb])) := by
  simp [add_event_listener, h]

/-- C9 counterexample: a listener added and then removed before the engine
attaches is nevertheless invoked after attachment — the pre-attachment
`removeEventListener` call is silently dropped (only additions are buffered),
so after `set_patcher` flushes the buffers the emitted `module_patched` event
still reaches callback 7. -/
theorem c9_remove_not_buffered_counterexample :
    ((reg_add_event_listener initial_regstate ev_module_patched ex_cb).bind
        (fun rs1 => (reg_remove_event_listener rs1 ev_module_patched ex_cb).bind
          (fun rs2 => set_patcher rs2 initial_pstate))).toOption.map
      (fun rs => rs.patcher.map (fun p => emit_event p.event_listeners ev_module_patched))
      = some (some (Except.ok [7])) := by
  decide

/-- C9 amended: `addEventListener` calls made before the engine exists are
buffered and take effect, in FIFO order, when the engine attaches — provided
the buffered event names are not `Object.prototype` keys, since replaying a
buffered add for an inherited key makes the engine's guard pass and the flush
throw a TypeError out of `set_patcher`.  `removeEventListener` before
attachment is a no-op (removals are not buffered), so a listener added and
then removed before attachment is still subscribed — and is invoked — after
attachment. -/
theorem c9_listener_buffering_amended :
    (∀ (rs : RegState) (e : Str) (cb : Callback), rs.patcher = none →
      reg_add_event_listener rs e cb
        = Except.ok { rs with event_listener_buffer := rs.event_listener_buffer ++ [(e, cb)] }) ∧
    (∀ (rs : RegState) (e : Str) (cb : Callback), rs.patcher = none →
      reg_remove_event_listener rs e cb = Except.ok rs) ∧
    (∀ (rs : RegState) (p : PState) (e : Str) (cb : Callback),
      rs.patcher = none → rs.is_flushing = false → rs.patch_buffer = [] →
      rs.event_listener_buffer = [(e, cb)] →
      lookup_event p.event_listeners e = EvLookup.inherited →
      set_patcher rs p = Except.error JsErr.typeError) ∧
    (∀ (rs : RegState) (p : PState) (e : Str) (cb : Callback) (cbs : List Callback),
      rs.patcher = none → rs.is_flushing = false → rs.patch_buffer = [] →
      rs.event_listener_buffer = [] →
      lookup_event p.event_listeners e = EvLookup.own cbs →
      ∃ rs1 rs' p', reg_add_event_listener rs e cb = Except.ok rs1 ∧
        reg_remove_event_listener rs1 e cb = Except.ok rs1 ∧
        set_patcher rs1 p = Except.ok rs' ∧ rs'.patcher = some p' ∧
        emit_event p'.event_listeners e = Except.ok ((cbs ++ [cb]).map Callback.cid) ∧
        cb.cid ∈ (cbs ++ [cb]).map Callback.cid) := by
  have hadd : ∀ (rs : RegState) (e : Str) (cb : Callback), rs.patcher = none →
      reg_add_event_listener rs e cb
        = Except.ok { rs with event_listener_buffer := rs.event_listener_buffer ++ [(e, cb)] } := by
    intro rs e cb h; simp [reg_add_event_listener, h]
  have hrem : ∀ (rs : RegState) (e : Str) (cb : Callback), rs.patcher = none →
      reg_remove_event_listener rs e cb = Except.ok rs := by
    intro rs e cb h; simp [reg_remove_event_listener, h]
  refine ⟨hadd, hrem, ?_, ?_⟩
  · intro rs p e cb h hf hb hbuf hlook
    have haeq : add_event_listener p.event_listeners e cb = Except.error JsErr.typeError := by
      simp [add_event_listener, hlook]
    simp [set_patcher, h, hf, hb, hbuf, flush_patches, flush_listeners, haeq]
  · intro rs p e cb cbs h hf hb hbuf hlook
    have haeq := add_event_listener_own p.event_listeners e cb cbs hlook
    have hflush : set_patcher
          { rs with event_listener_buffer := rs.event_listener_buffer ++ [(e, cb)] } p
        = Except.ok { rs with
            patcher := some { p with event_listeners := set_event p.event_listeners e (cbs ++ [cb]) }
            patch_buffer := []
            event_listener_buffer := []
            is_flushing := false } := by
      simp [set_patcher, h, hf, hb, hbuf, flush_patches, flush_listeners, haeq]
    refine ⟨{ rs with event_listener_buffer := rs.event_listener_buffer ++ [(e, cb)] },
      _, _, hadd rs e cb h, hrem _ e cb (by simp [h]), hflush, rfl, ?_, by simp⟩
    exact emit_event_trace _ e (cbs ++ [cb])
      (lookup_set_event p.event_listeners e (cbs ++ [cb]) cbs hlook)

theorem c9_listener_buffering_amended_witness :
    (∃ rs1 rs' p', reg_add_event_listener initial_regstate ev_module_patched ex_cb
          = Except.ok rs1 ∧
        reg_remove_event_listener rs1 ev_module_patched ex_cb = Except.ok rs1 ∧
        set_patcher rs1 initial_pstate = Except.ok rs' ∧ rs'.patcher = some p' ∧
        emit_event p'.event_listeners ev_module_patched
          = Except.ok (([] ++ [ex_cb]).map Callback.cid) ∧
        ex_cb.cid ∈ ([] ++ [ex_cb]).map Callback.cid) ∧
    set_patcher { initial_regstate with
        event_listener_buffer := [("constructor".toList, ex_cb)] } initial_pstate
      = Except.error JsErr.typeError :=
  ⟨c9_listener_buffering_amended.2.2.2 initial_regstate initial_pstate ev_module_patched ex_cb []
      (by decide) (by decide) (by decide) (by decide) (by decide),
    c9_listener_buffering_amended.2.2.1
      { initial_regstate with event_listener_buffer := [("constructor".toList, ex_cb)] }
      initial_pstate ("constructor".toList) ex_cb
      (by decide) (by decide) (by decide) (by decide) (by decide)⟩

theorem assocGet_assocSet_self {κ ν : Type} [DecidableEq κ] (m : List (κ × ν)) (k : κ) (v : ν) :
    assocGet (assocSet m k v) k = some v := by
  induction m with
  | nil => simp [assocSet, assocGet]
  | cons kv rest ih =>
    obtain ⟨k', v'⟩ := kv
    by_cases h : k' = k
    · simp [assocSet, assocGet, h]
    · simp [assocSet, assocGet, h, ih]

theorem falsy_name_false_of_ne_nil (n : Str) (hn : n ≠ []) :
    falsy_name (some n) = false := by
  obtain ⟨c, cs, rfl⟩ := List.exists_cons_of_ne_nil hn
  rfl

theorem registrars_lookup_assocSet_self (slots : List (Str × Slot)) (n : Str) (s : Slot) :
    registrars_lookup (assocSet slots n s) n = RegLookup.own s := by
  simp [registrars_lookup, assocGet_assocSet_self]

/-- C5 counterexample: the very first `register` call with the name
`constructor` creates no registrar — the truthy inherited
`Object.prototype.constructor` already passes the `!Registrars[name]` guard —
and the call hands back that inherited prototype member instead of a
registrar object; the `Registrars` object stays empty. -/
theorem c5_register_inherited_counterexample :
    register_patches initial_pstate
        { name := some "constructor".toList, data := some 41, functions := some 42 } [] none
      = Except.ok ({ initial_pstate with hooked := true }, RegResult.inheritedObj) ∧
    ({ initial_pstate with hooked := true } : PState).registrar_slots = [] := by
  constructor
  · decide
  · rfl

/-- C5 (amended): per-name idempotence holds only off the `Object.prototype`
key set.  For a nonempty name that is neither an own slot nor an inherited
key, the first call creates the registrar from the supplied data/functions in
a non-writable, non-configurable slot and returns it; when an own slot already
exists, the call returns the stored registrar object and leaves all registrar
slots unchanged, ignoring the later-supplied data/functions; but for a name
inherited from `Object.prototype` no registrar is ever created and the call
returns the inherited object, with the registrar slots unchanged. -/
theorem c5_register_idempotent_amended :
    (∀ (st : PState) (opts : RegisterOptions) (patches : List InputPatch) (n : Str)
        (d f : Nat),
      opts.name = some n → n ≠ [] → opts.data = some d → opts.functions = some f →
      registrars_lookup st.registrar_slots n = RegLookup.undef →
      ∃ st' r, register_patches st opts patches none = Except.ok (st', RegResult.registrar r) ∧
        r.data = d ∧ r.functions = f ∧
        assocGet st'.registrar_slots n
          = some { value := r, writable := false, configurable := false }) ∧
    (∀ (st : PState) (opts : RegisterOptions) (patches : List InputPatch)
        (er : Option Registrar) (n : Str) (s : Slot),
      opts.name = some n → n ≠ [] → assocGet st.registrar_slots n = some s →
      ∃ st', register_patches st opts patches er = Except.ok (st', RegResult.registrar s.value) ∧
        st'.registrar_slots = st.registrar_slots) ∧
    (∀ (st : PState) (opts : RegisterOptions) (patches : List InputPatch)
        (er : Option Registrar) (n : Str),
      opts.name = some n → n ≠ [] → assocGet st.registrar_slots n = none →
      n ∈ js_proto_keys →
      ∃ st', register_patches st opts patches er = Except.ok (st', RegResult.inheritedObj) ∧
        st'.registrar_slots = st.registrar_slots) := by
  refine ⟨?_, ?_, ?_⟩
  · intro st opts patches n d f hname hn hd hf hlu
    have hfalsy : falsy_name (some n) = false := falsy_name_false_of_ne_nil n hn
    cases hh : st.hooked <;>
      simp only [register_patches, hname, hfalsy, Bool.false_eq_true, if_false, Option.getD_some,
        hlu, hd, hf, hh, if_true, registrars_lookup_assocSet_self] <;>
      exact ⟨_, _, rfl, rfl, rfl, assocGet_assocSet_self _ _ _⟩
  · intro st opts patches er n s hname hn hslot
    have hfalsy : falsy_name (some n) = false := falsy_name_false_of_ne_nil n hn
    have hlu : registrars_lookup st.registrar_slots n = RegLookup.own s := by
      simp [registrars_lookup, hslot]
    cases hh : st.hooked <;>
      simp only [register_patches, hname, hfalsy, Bool.false_eq_true, if_false, Option.getD_some,
        hlu, hh, if_true] <;>
      exact ⟨_, rfl, rfl⟩
  · intro st opts patches er n hname hn hnone hmem
    have hfalsy : falsy_name (some n) = false := falsy_name_false_of_ne_nil n hn
    have hlu : registrars_lookup st.registrar_slots n = RegLookup.inherited := by
      simp [registrars_lookup, hnone, hmem]
    cases hh : st.hooked <;>
      simp only [register_patches, hname, hfalsy, Bool.false_eq_true, if_false, Option.getD_some,
        hlu, hh, if_true] <;>
      exact ⟨_, rfl, rfl⟩

theorem c5_register_idempotent_amended_witness :
    (∃ st' r, register_patches initial_pstate
        { name := some "A".toList, data := some 41, functions := some 42 } [] none
        = Except.ok (st', RegResult.registrar r) ∧ r.data = 41 ∧ r.functions = 42 ∧
        assocGet st'.registrar_slots ("A".toList)
          = some { value := r, writable := false, configurable := false }) ∧
    (∃ st', register_patches c5w_st ex_opts_B [ex_patch_arr1] none
        = Except.ok (st', RegResult.registrar c5w_reg) ∧
        st'.registrar_slots = c5w_st.registrar_slots) ∧
    (∃ st', register_patches initial_pstate
        { name := some "valueOf".toList, data := some 7, functions := some 8 } [] none
        = Except.ok (st', RegResult.inheritedObj) ∧
        st'.registrar_slots = initial_pstate.registrar_slots) := by
  refine ⟨?_, ?_, ?_⟩
  · exact c5_register_idempotent_amended.1 initial_pstate
      { name := some "A".toList, data := some 41, functions := some 42 } [] ("A".toList)
      41 42 rfl (by decide) rfl rfl (by decide)
  · have := c5_register_idempotent_amended.2.1 c5w_st ex_opts_B [ex_patch_arr1] none
      ("A".toList) c5w_slot rfl (by decide) (by decide)
    simpa [c5w_slot] using this
  · exact c5_register_idempotent_amended.2.2 initial_pstate
      { name := some "valueOf".toList, data := some 7, functions := some 8 } [] none
      ("valueOf".toList) rfl (by decide) (by decide) (by decide)

theorem merge_patch_mem_find (ps : List StoredPatch) (p : StoredPatch) (x : StoredPatch)
    (hx : x ∈ merge_patch ps p) : x.find = p.find ∨ ∃ y ∈ ps, x.find = y.find := by
  induction ps with
  | nil => simp [merge_patch] at hx; exact Or.inl (by rw [hx])
  | cons q rest ih =>
    by_cases h : js_find_eq q.find p.find
    · simp only [merge_patch, h, if_true] at hx
      rcases List.mem_cons.mp hx with h1 | h1
      · exact Or.inr ⟨q, List.mem_cons_self q rest, by rw [h1]⟩
      · exact Or.inr ⟨x, List.mem_cons_of_mem q h1, rfl⟩
    · simp only [merge_patch, h, if_false] at hx
      rcases List.mem_cons.mp hx with h1 | h1
      · exact Or.inr ⟨q, List.mem_cons_self q rest, by rw [h1]⟩
      · rcases ih h1 with h2 | ⟨y, hy, h2⟩
        · exact Or.inl h2
        · exact Or.inr ⟨y, List.mem_cons_of_mem q hy, h2⟩

/-- C6 counterexample: two registrations whose `find` arrays have identical
contents (`["x"]`) but are distinct array objects produce a patch list with
two entries carrying the identical find set and separate replacement lists —
the merge only fires on reference-equal (`===`) finds, so the claimed "never
two patches with an identical find set" invariant fails. -/
theorem c6_merge_counterexample :
    ((register_patches initial_pstate ex_opts_A [ex_patch_arr1] none).toOption.bind
      (fun pr => (register_patches pr.1 ex_opts_A [ex_patch_arr2] none).toOption.map
        (fun pr2 => (pr2.1.patches.map (fun p => find_list p.find),
                     pr2.1.patches.map (fun p => p.replacements)))))
      = some ([[Matcher.str "x".toList], [Matcher.str "x".toList]],
              [[ex_repl_a], [ex_repl_b]]) := by
  decide

/-- C6 amended: registering a patch merges it into an existing patch exactly
when the two `find` values are `===`-equal (same string value, or the very
same array/RegExp object): in that case the replacements are appended to the
first such patch and the list does not grow, otherwise the patch is appended
as a new entry; consequently the patch list never contains two entries with
`===`-equal finds — but structurally identical find arrays that are distinct
objects are not merged. -/
theorem c6_merge_by_reference_amended :
    (∀ (ps : List StoredPatch) (p : StoredPatch),
      ps.all (fun q => !js_find_eq q.find p.find) = true → merge_patch ps p = ps ++ [p]) ∧
    (∀ (ps : List StoredPatch) (p : StoredPatch),
      ps.any (fun q => js_find_eq q.find p.find) = true →
      (merge_patch ps p).length = ps.length) ∧
    (∀ (p q : StoredPatch) (rest : List StoredPatch), js_find_eq q.find p.find = true →
      merge_patch (q :: rest) p
        = { q with replacements := q.replacements ++ p.replacements } :: rest) ∧
    (∀ (ps : List StoredPatch) (p : StoredPatch),
      List.Pairwise (fun a b => js_find_eq a.find b.find = false) ps →
      List.Pairwise (fun a b => js_find_eq a.find b.find = false) (merge_patch ps p)) := by
  refine ⟨?_, ?_, ?_, ?_⟩
  · intro ps p h
    induction ps with
    | nil => rfl
    | cons q rest ih =>
      simp only [List.all_cons, Bool.and_eq_true, Bool.not_eq_true'] at h
      simp only [merge_patch, h.1, Bool.false_eq_true, if_false, List.cons_append,
        List.cons.injEq, true_and]
      exact ih h.2
  · intro ps p h
    induction ps with
    | nil => simp at h
    | cons q rest ih =>
      by_cases hq : js_find_eq q.find p.find
      · simp [merge_patch, hq]
      · have h' : (rest.any fun q => js_find_eq q.find p.find) = true := by
          simp only [List.any_cons, Bool.or_eq_true] at h
          rcases h with h | h
          · exact absurd h hq
          · exact h
        simp [merge_patch, hq, ih h']
  · intro p q rest h
    simp [merge_patch, h]
  · intro ps p hp
    induction ps with
    | nil => simp [merge_patch]
    | cons q rest ih =>
      rcases List.pairwise_cons.mp hp with ⟨hq, hrest⟩
      by_cases h : js_find_eq q.find p.find
      · simp only [merge_patch, h, if_true]
        exact List.pairwise_cons.mpr ⟨fun x hx => hq x hx, hrest⟩
      · simp only [merge_patch, h, if_false]
        refine List.pairwise_cons.mpr ⟨?_, ih hrest⟩
        intro x hx
        rcases merge_patch_mem_find rest p x hx with h2 | ⟨y, hy, h2⟩
        · rw [h2]
          have hfalse : js_find_eq q.find p.find = false := by simpa using h
          exact hfalse
        · rw [h2]; exact hq y hy

theorem c6_merge_by_reference_amended_witness :
    merge_patch [{ find := ex_patch_arr1.find, replacements := [ex_repl_a], registrar_name := "A".toList }]
        { find := ex_patch_arr2.find, replacements := [ex_repl_b], registrar_name := "A".toList }
      = [{ find := ex_patch_arr1.find, replacements := [ex_repl_a], registrar_name := "A".toList },
         { find := ex_patch_arr2.find, replacements := [ex_repl_b], registrar_name := "A".toList }] ∧
    merge_patch [{ find := ex_patch_arr1.find, replacements := [ex_repl_a], registrar_name := "A".toList }]
        { find := ex_patch_arr1.find, replacements := [ex_repl_b], registrar_name := "A".toList }
      = [{ find := ex_patch_arr1.find, replacements := [ex_repl_a, ex_repl_b], registrar_name := "A".toList }] :=
  ⟨c6_merge_by_reference_amended.1 _ _ (by decide),
    by
      have := c6_merge_by_reference_amended.2.2.1
        { find := ex_patch_arr1.find, replacements := [ex_repl_b], registrar_name := "A".toList }
        { find := ex_patch_arr1.find, replacements := [ex_repl_a], registrar_name := "A".toList }
        [] (by decide)
      simpa using this⟩

theorem apply_rule_snd (cfg : Config) (code : Str) (mr : Replacement) :
    (apply_rule cfg code mr).2 = containsSub mr.mtch code := rfl

/-- C2: `_apply_patch` is fail-closed and atomic — for every factory and
replacement list, if zero rules produced any substitution, or if compiling the
edited text throws, the original factory and original factory string are
returned unchanged (the exception is caught inside `_apply_patch` and only
logged; the function still returns normally). -/
theorem c2_apply_patch_fail_closed (cfg : Config) (nr : Nat) (f : Factory) (fs : Str)
    (mars : List Replacement) (mid : Nat) (name : Str)
    (h : (apply_rules cfg mars fs).2 = 0 ∨
      cfg.compile_ok (compile_source cfg mid
        (resolve_placeholders cfg.placeholder_id name (apply_rules cfg mars fs).1)) = false) :
    apply_patch cfg nr f fs mars mid name = (f, fs, nr) := by
  rcases h with h | h
  · simp [apply_patch, h]
  · by_cases h0 : (apply_rules cfg mars fs).2 = 0
    · simp [apply_patch, h0]
    · simp [apply_patch, h0, h]

theorem c2_apply_patch_fail_closed_witness :
    apply_patch ex_cfg 0 ex_factory ex_factory.code
        [{ mtch := "zzz".toList, replace := ReplaceVal.str "y".toList, global := false }]
        5 ("A".toList)
      = (ex_factory, ex_factory.code, 0) ∧
    apply_patch ex_cfg_nocompile 0 ex_factory ex_factory.code
        [{ mtch := "foo".toList, replace := ReplaceVal.str "baz".toList, global := false }]
        5 ("A".toList)
      = (ex_factory, ex_factory.code, 0) :=
  ⟨c2_apply_patch_fail_closed ex_cfg 0 ex_factory ex_factory.code _ 5 ("A".toList)
      (Or.inl (by decide)),
    c2_apply_patch_fail_closed ex_cfg_nocompile 0 ex_factory ex_factory.code _ 5 ("A".toList)
      (Or.inr (by decide))⟩

theorem loop_step_applied_mono (cfg : Config) (mid : Nat) (acc : LoopAcc) (p : StoredPatch)
    (h : acc.applied = true) : (loop_step cfg mid acc p).applied = true := by
  unfold loop_step
  split
  · dsimp only
    split
    · exact h
    · rfl
  · exact h

theorem patch_loop_cons (cfg : Config) (mid : Nat) (p : StoredPatch) (rest : List StoredPatch)
    (acc : LoopAcc) :
    patch_loop cfg mid (p :: rest) acc = patch_loop cfg mid rest (loop_step cfg mid acc p) := rfl

theorem patch_loop_applied_mono (cfg : Config) (mid : Nat) (ps : List StoredPatch) (acc : LoopAcc)
    (h : acc.applied = true) : (patch_loop cfg mid ps acc).applied = true := by
  induction ps generalizing acc with
  | nil => exact h
  | cons p rest ih =>
    rw [patch_loop_cons]
    exact ih _ (loop_step_applied_mono cfg mid acc p h)

theorem loop_step_not_applied (cfg : Config) (mid : Nat) (acc : LoopAcc) (p : StoredPatch)
    (h : (loop_step cfg mid acc p).applied = false) :
    (loop_step cfg mid acc p).cur_factory = acc.cur_factory := by
  revert h
  unfold loop_step
  split
  · dsimp only
    split
    · intro _; rfl
    · intro h; simp at h
  · intro _; rfl

theorem patch_loop_not_applied (cfg : Config) (mid : Nat) (ps : List StoredPatch) (acc : LoopAcc)
    (h : (patch_loop cfg mid ps acc).applied = false) :
    (patch_loop cfg mid ps acc).cur_factory = acc.cur_factory := by
  induction ps generalizing acc with
  | nil => rfl
  | cons p rest ih =>
    rw [patch_loop_cons] at h ⊢
    have h2 : (loop_step cfg mid acc p).applied = false := by
      cases hx : (loop_step cfg mid acc p).applied with
      | false => rfl
      | true =>
        have := patch_loop_applied_mono cfg mid rest _ hx
        rw [this] at h
        exact absurd h (by decide)
    rw [ih _ h]
    exact loop_step_not_applied cfg mid acc p h2

/-- C1 counterexample: later invocations do NOT reuse the cached patched
result.  On an engine with one applicable patch, the first invocation of the
module's proxy produces the patched factory and stores it in the raw factory
map; the second invocation of the same proxy returns the proxy's stored
ORIGINAL target — a factory different from the patched one sitting in the
map — so the unpatched code is what runs. -/
theorem c1_stale_proxy_counterexample :
    assocGet ((proxy_apply ex_cfg c1ce_st
          (create_factory_proxy 3 c1ce_factory)).1.module_factories.getD []) 3
      = some { ref := 0, code := "aXYc".toList, orig_sym := some 100 } ∧
    proxy_apply ex_cfg (proxy_apply ex_cfg c1ce_st (create_factory_proxy 3 c1ce_factory)).1
        (create_factory_proxy 3 c1ce_factory)
      = ((proxy_apply ex_cfg c1ce_st (create_factory_proxy 3 c1ce_factory)).1, c1ce_factory) ∧
    c1ce_factory ≠ { ref := 0, code := "aXYc".toList, orig_sym := some 100 } := by
  refine ⟨by decide, by decide, by decide⟩

/-- C1 (amended): the matching/replacement attempt runs at most once per
module id — the first invocation of a module's factory proxy adds the id to
`patched_modules` whether or not any replacement succeeded, and any invocation
made while the id is already in `patched_modules` returns the engine state
completely unchanged.  However, such later invocations do not reuse the cached
result: they hand back the proxy's stored original factory, while the patched
factory (whenever one was produced, i.e. the first invocation returned a
stamped factory) sits only in the raw module-factories map. -/
theorem c1_at_most_once_amended :
    (∀ (cfg : Config) (st : PState) (p : FactoryProxy), p.target.orig_sym = none →
      p.module_id ∈ (proxy_apply cfg st p).1.patched_modules) ∧
    (∀ (cfg : Config) (st : PState) (p : FactoryProxy), p.target.orig_sym = none →
      p.module_id ∈ st.patched_modules →
      proxy_apply cfg st p = (st, p.target)) ∧
    (∀ (cfg : Config) (st : PState) (p : FactoryProxy), p.target.orig_sym = none →
      p.module_id ∉ st.patched_modules →
      ((proxy_apply cfg st p).2.orig_sym).isSome = true →
      assocGet ((proxy_apply cfg st p).1.module_factories.getD []) p.module_id
        = some (proxy_apply cfg st p).2) := by
  refine ⟨?_, ?_, ?_⟩
  · intro cfg st p h
    unfold proxy_apply get_or_patch
    rw [h]
    simp only [Option.isSome_none, Bool.false_eq_true, if_false]
    by_cases hm : p.module_id ∈ st.patched_modules
    · simp [hm]
    · simp only [hm, if_false]
      split <;> simp
  · intro cfg st p h hm
    unfold proxy_apply get_or_patch
    rw [h]
    simp [hm]
  · intro cfg st p h hm hsome
    unfold proxy_apply get_or_patch at hsome ⊢
    rw [h] at hsome ⊢
    simp only [Option.isSome_none, Bool.false_eq_true, if_false] at hsome ⊢
    rw [if_neg hm] at hsome ⊢
    split at hsome
    next happ =>
      rw [if_pos happ]
      simp [assocGet_assocSet_self]
    next happ =>
      exfalso
      rw [Bool.not_eq_true] at happ
      have hcf := patch_loop_not_applied _ _ _ _ happ
      simp only [hcf] at hsome
      rw [h] at hsome
      simp at hsome

theorem c1_at_most_once_amended_witness :
    3 ∈ (proxy_apply ex_cfg initial_pstate (create_factory_proxy 3 ex_factory)).1.patched_modules ∧
    proxy_apply ex_cfg { initial_pstate with patched_modules := [3] }
        (create_factory_proxy 3 ex_factory)
      = ({ initial_pstate with patched_modules := [3] }, ex_factory) ∧
    assocGet ((proxy_apply ex_cfg c1ce_st
          (create_factory_proxy 3 c1ce_factory)).1.module_factories.getD []) 3
      = some (proxy_apply ex_cfg c1ce_st (create_factory_proxy 3 c1ce_factory)).2 :=
  ⟨c1_at_most_once_amended.1 ex_cfg initial_pstate (create_factory_proxy 3 ex_factory) rfl,
    c1_at_most_once_amended.2.1 ex_cfg { initial_pstate with patched_modules := [3] }
      (create_factory_proxy 3 ex_factory) rfl (by decide),
    c1_at_most_once_amended.2.2 ex_cfg c1ce_st (create_factory_proxy 3 c1ce_factory) rfl
      (by decide) (by decide)⟩

theorem apply_rules_shift (cfg : Config) (mars : List Replacement) (code : Str) (k : Nat) :
    mars.foldl (fun acc mr =>
        let r := apply_rule cfg acc.1 mr
        (r.1, acc.2 + if r.2 then 1 else 0)) (code, k)
      = ((apply_rules cfg mars code).1, k + (apply_rules cfg mars code).2) := by
  induction mars generalizing code k with
  | nil => simp [apply_rules]
  | cons mr rest ih =>
    simp only [List.foldl_cons, apply_rules]
    rw [ih, ih]
    simp [Nat.add_assoc]

theorem apply_rules_cons (cfg : Config) (mr : Replacement) (rest : List Replacement)
    (code : Str) :
    apply_rules cfg (mr :: rest) code
      = ((apply_rules cfg rest (apply_rule cfg code mr).1).1,
         (if (apply_rule cfg code mr).2 then 1 else 0)
           + (apply_rules cfg rest (apply_rule cfg code mr).1).2) := by
  unfold apply_rules
  simp only [List.foldl_cons]
  rw [apply_rules_shift]
  simp [apply_rules]

/-- C3: replacement rules are applied sequentially over accumulating text.
First conjunct: the rule loop hands each rule the cumulative output of the
previous rules, never the pristine original.  Second conjunct: a two-rule
patch whose second rule's match occurs only in the first rule's output still
succeeds — the compiled factory's source is rule 2 applied to rule 1's output.
Third conjunct: in the patch loop of `_get_or_patch_factory`, a second
matching patch is evaluated against (and applied to) the text already edited
by the first patch. -/
theorem c3_replacements_chain :
    (∀ (cfg : Config) (mr : Replacement) (rest : List Replacement) (code : Str),
      apply_rules cfg (mr :: rest) code
        = ((apply_rules cfg rest (apply_rule cfg code mr).1).1,
           (if (apply_rule cfg code mr).2 then 1 else 0)
             + (apply_rules cfg rest (apply_rule cfg code mr).1).2)) ∧
    (∀ (cfg : Config) (nr : Nat) (f : Factory) (fs : Str) (r1 r2 : Replacement)
        (mid : Nat) (name : Str),
      containsSub r2.mtch fs = false →
      containsSub r2.mtch (apply_rule cfg fs r1).1 = true →
      cfg.compile_ok (compile_source cfg mid (resolve_placeholders cfg.placeholder_id name
        (apply_rule cfg (apply_rule cfg fs r1).1 r2).1)) = true →
      apply_patch cfg nr f fs [r1, r2] mid name
        = ({ ref := nr,
             code := resolve_placeholders cfg.placeholder_id name
               (apply_rule cfg (apply_rule cfg fs r1).1 r2).1,
             orig_sym := none },
           resolve_placeholders cfg.placeholder_id name
             (apply_rule cfg (apply_rule cfg fs r1).1 r2).1, nr + 1)) ∧
    (∀ (cfg : Config) (mid : Nat) (p1 p2 : StoredPatch) (acc : LoopAcc),
      check_pattern_match cfg acc.cur_code p1 = true →
      (apply_patch cfg acc.next_ref acc.cur_factory acc.cur_code p1.replacements mid
          p1.registrar_name).1.ref ≠ acc.cur_factory.ref →
      check_pattern_match cfg acc.cur_code p2 = false →
      check_pattern_match cfg
          (apply_patch cfg acc.next_ref acc.cur_factory acc.cur_code p1.replacements mid
            p1.registrar_name).2.1 p2 = true →
      patch_loop cfg mid [p1, p2] acc
        = loop_step cfg mid
            { cur_factory := (apply_patch cfg acc.next_ref acc.cur_factory acc.cur_code
                p1.replacements mid p1.registrar_name).1
              cur_code := (apply_patch cfg acc.next_ref acc.cur_factory acc.cur_code
                p1.replacements mid p1.registrar_name).2.1
              applied := true
              next_ref := (apply_patch cfg acc.next_ref acc.cur_factory acc.cur_code
                p1.replacements mid p1.registrar_name).2.2 } p2) := by
  refine ⟨apply_rules_cons, ?_, ?_⟩
  · intro cfg nr f fs r1 r2 mid name h1 h2 h3
    have hsnd : (apply_rule cfg (apply_rule cfg fs r1).1 r2).2 = true := by
      rw [apply_rule_snd]; exact h2
    have hrules : apply_rules cfg [r1, r2] fs
        = ((apply_rule cfg (apply_rule cfg fs r1).1 r2).1,
           (if (apply_rule cfg fs r1).2 then 1 else 0) + 1) := by
      rw [apply_rules_cons, apply_rules_cons]
      simp [apply_rules, hsnd]
    have hne : ((if (apply_rule cfg fs r1).2 then 1 else 0) + 1) ≠ 0 := by
      simp
    simp only [apply_patch, hrules, hne, if_false, h3, if_true]
  · intro cfg mid p1 p2 acc h1 h2 h3 h4
    show List.foldl (loop_step cfg mid) acc [p1, p2] = _
    simp only [List.foldl_cons, List.foldl_nil]
    congr 1
    unfold loop_step
    rw [h1]
    simp only [if_true]
    rw [if_neg h2]

theorem c3_replacements_chain_witness :
    apply_patch ex_cfg 0 ex_factory ("abc".toList) [c3r1, c3r2] 5 ("A".toList)
      = ({ ref := 0, code := "aZc".toList, orig_sym := none }, "aZc".toList, 1) ∧
    patch_loop ex_cfg 5 [c3p1, c3p2] c3acc
      = { cur_factory := { ref := 1, code := "aZc".toList, orig_sym := none },
          cur_code := "aZc".toList, applied := true, next_ref := 2 } := by
  constructor
  · have h := c3_replacements_chain.2.1 ex_cfg 0 ex_factory ("abc".toList) c3r1 c3r2 5
      ("A".toList) (by decide) (by decide) (by decide)
    rw [h]
    decide
  · have h := c3_replacements_chain.2.2 ex_cfg 5 c3p1 c3p2 c3acc
      (by decide) (by decide) (by decide) (by decide)
    rw [h]
    decide

theorem containsSub_iff_infix (n s : Str) : containsSub n s = true ↔ n <:+: s := by
  induction s with
  | nil =>
    simp [containsSub, List.isEmpty_iff]
  | cons c cs ih =>
    simp [containsSub, ih, List.infix_cons_iff]

theorem containsSub_eq_false_iff (n s : Str) : containsSub n s = false ↔ ¬ n <:+: s := by
  rw [← containsSub_iff_infix]
  cases containsSub n s <;> simp

theorem pre_append_cases {α : Type} {l p q : List α} (h : l <+: p ++ q) :
    l <+: p ∨ ∃ w, l = p ++ w ∧ w <+: q := by
  induction p generalizing l with
  | nil => exact Or.inr ⟨l, rfl, by simpa using h⟩
  | cons a p ih =>
    match l with
    | [] => exact Or.inl (List.nil_prefix)
    | b :: l' =>
      rw [List.cons_append, List.cons_prefix_cons] at h
      obtain ⟨rfl, h'⟩ := h
      rcases ih h' with h1 | ⟨w, rfl, hw⟩
      · exact Or.inl (List.cons_prefix_cons.mpr ⟨rfl, h1⟩)
      · exact Or.inr ⟨w, rfl, hw⟩

theorem infix_append_cases {α : Type} {n p q : List α} (h : n <:+: p ++ q) :
    n <:+: p ∨ n <:+: q ∨
      ∃ n₁ n₂, n = n₁ ++ n₂ ∧ n₁ ≠ [] ∧ n₂ ≠ [] ∧ n₁ <:+ p ∧ n₂ <+: q := by
  induction p generalizing n with
  | nil => exact Or.inr (Or.inl (by simpa using h))
  | cons a p ih =>
    rw [List.cons_append, List.infix_cons_iff] at h
    rcases h with hpre | hin
    · match n with
      | [] => exact Or.inl List.nil_infix
      | b :: n' =>
        rw [List.cons_prefix_cons] at hpre
        obtain ⟨rfl, h'⟩ := hpre
        rcases pre_append_cases h' with h1 | ⟨w, rfl, hw⟩
        · exact Or.inl (List.cons_prefix_cons.mpr ⟨rfl, h1⟩).isInfix
        · match w, hw with
          | [], _ =>
            refine Or.inl ?_
            have : b :: (p ++ []) = b :: p := by simp
            rw [this]
          | c :: w', hw =>
            refine Or.inr (Or.inr ⟨b :: p, c :: w', by simp, by simp, by simp,
              List.suffix_rfl, hw⟩)
    · rcases ih hin with h1 | h2 | ⟨n₁, n₂, rfl, hn1, hn2, hs, hp⟩
      · exact Or.inl (List.infix_cons h1)
      · exact Or.inr (Or.inl h2)
      · exact Or.inr (Or.inr ⟨n₁, n₂, rfl, hn1, hn2, hs.trans (List.suffix_cons a p), hp⟩)

theorem replAllGo_pre_inv (n r t : Str) (hrt : ¬ r <:+: t)
    (hsuf : ∀ v, v ≠ [] → v <:+ t → ¬ v <+: r) :
    ∀ (fuel : Nat) (s : Str) (v : Str), v ≠ [] → v <:+ t →
      v <+: replAllGo n r fuel s → v <+: s := by
  intro fuel
  induction fuel with
  | zero => intro s v _ _ h; simpa [replAllGo] using h
  | succ fuel ih =>
    intro s v hv hvt hpre
    match s with
    | [] =>
      simp only [replAllGo] at hpre
      exact hpre
    | c :: cs =>
      by_cases hm : n.isPrefixOf (c :: cs)
      · simp only [replAllGo, hm, if_true] at hpre
        rcases pre_append_cases hpre with h1 | ⟨w, rfl, hw⟩
        · exact absurd h1 (hsuf v hv hvt)
        · exact absurd ((List.prefix_append r w).isInfix.trans hvt.isInfix) hrt
      · simp only [replAllGo, hm, Bool.false_eq_true, if_false] at hpre
        match v, hv with
        | b :: v', _ =>
          rw [List.cons_prefix_cons] at hpre
          obtain ⟨rfl, h'⟩ := hpre
          match v' with
          | [] => exact List.cons_prefix_cons.mpr ⟨rfl, List.nil_prefix⟩
          | d :: v'' =>
            have hv't : (d :: v'') <:+ t := (List.suffix_cons b (d :: v'')).trans hvt
            have := ih cs (d :: v'') (by simp) hv't h'
            exact List.cons_prefix_cons.mpr ⟨rfl, this⟩

theorem replAllGo_no_infix (n r : Str) (hn : n ≠ [])
    (h1 : ¬ n <:+: r) (h2 : ¬ r <:+: n)
    (hB : ∀ v, v ≠ [] → v <:+ n → ¬ v <+: r)
    (hC : ∀ u, u ≠ [] → u <+: n → ¬ u <:+ r) :
    ∀ (fuel : Nat) (s : Str), s.length ≤ fuel → ¬ n <:+: replAllGo n r fuel s := by
  intro fuel
  induction fuel with
  | zero =>
    intro s hlen hinf
    have hs : s = [] := List.length_eq_zero.mp (Nat.le_zero.mp hlen)
    subst hs
    simp only [replAllGo, List.infix_nil] at hinf
    exact hn hinf
  | succ fuel ih =>
    intro s hlen hinf
    match s with
    | [] =>
      simp only [replAllGo, List.infix_nil] at hinf
      exact hn hinf
    | c :: cs =>
      by_cases hm : n.isPrefixOf (c :: cs)
      · simp only [replAllGo, hm, if_true] at hinf
        rcases infix_append_cases hinf with ha | hb | ⟨n₁, n₂, heq, hn1, hn2, hsuf1, hpre2⟩
        · exact h1 ha
        · have hpos : 0 < n.length := List.length_pos.mpr hn
          have hdrop : ((c :: cs).drop n.length).length ≤ fuel := by
            simp only [List.length_drop, List.length_cons]
            simp only [List.length_cons] at hlen
            omega
          exact ih _ hdrop hb
        · have hpre : n₁ <+: n := heq ▸ List.prefix_append n₁ n₂
          exact hC n₁ hn1 hpre hsuf1
      · simp only [replAllGo, hm, Bool.false_eq_true, if_false] at hinf
        rw [List.infix_cons_iff] at hinf
        rcases hinf with hpre | hin
        · match n, hn, hpre with
          | b :: n', _, hpre =>
            rw [List.cons_prefix_cons] at hpre
            obtain ⟨rfl, h'⟩ := hpre
            match n' with
            | [] => exact hm (by simp)
            | d :: n'' =>
              have h'' := replAllGo_pre_inv (b :: d :: n'') r (b :: d :: n'') h2 hB fuel cs
                (d :: n'') (by simp) (List.suffix_cons b (d :: n'')) h'
              have : (b :: d :: n'') <+: (b :: cs) := List.cons_prefix_cons.mpr ⟨rfl, h''⟩
              exact hm (by simpa using this)
        · have hcs : cs.length ≤ fuel := by
            simp only [List.length_cons] at hlen
            omega
          exact ih cs hcs hin

theorem replAllGo_keeps_no_infix (n r t : Str) (h1 : ¬ t <:+: r) (h2 : ¬ r <:+: t)
    (hB : ∀ v, v ≠ [] → v <:+ t → ¬ v <+: r)
    (hC : ∀ u, u ≠ [] → u <+: t → ¬ u <:+ r) :
    ∀ (fuel : Nat) (s : Str), ¬ t <:+: s → ¬ t <:+: replAllGo n r fuel s := by
  intro fuel
  induction fuel with
  | zero => intro s hs; simpa [replAllGo] using hs
  | succ fuel ih =>
    intro s hs hinf
    match s with
    | [] =>
      simp only [replAllGo] at hinf
      exact hs hinf
    | c :: cs =>
      by_cases hm : n.isPrefixOf (c :: cs)
      · simp only [replAllGo, hm, if_true] at hinf
        rcases infix_append_cases hinf with ha | hb | ⟨t₁, t₂, heq, ht1, ht2, hsuf1, hpre2⟩
        · exact h1 ha
        · refine ih _ ?_ hb
          intro hdrop
          exact hs (hdrop.trans (List.drop_suffix _ _).isInfix)
        · have hpre : t₁ <+: t := heq ▸ List.prefix_append t₁ t₂
          exact hC t₁ ht1 hpre hsuf1
      · simp only [replAllGo, hm, Bool.false_eq_true, if_false] at hinf
        rw [List.infix_cons_iff] at hinf
        have hs' : ¬ t <:+: cs := fun hx => hs (List.infix_cons hx)
        rcases hinf with hpre | hin
        · match t, hpre with
          | [], _ => exact hs List.nil_infix
          | b :: t', hpre =>
            rw [List.cons_prefix_cons] at hpre
            obtain ⟨rfl, h'⟩ := hpre
            match t' with
            | [] => exact hs (List.cons_prefix_cons.mpr ⟨rfl, List.nil_prefix⟩).isInfix
            | d :: t'' =>
              have h'' := replAllGo_pre_inv n r (b :: d :: t'') h2 hB fuel cs
                (d :: t'') (by simp) (List.suffix_cons b (d :: t'')) h'
              exact hs (List.cons_prefix_cons.mpr ⟨rfl, h''⟩).isInfix
        · exact ih cs hs' hin

theorem noPreSuf_spec (t r : Str) (h : noPreSuf t r = true) :
    ∀ u, u ≠ [] → u <+: t → ¬ u <:+ r := by
  intro u hu hut hur
  unfold noPreSuf at h
  rw [List.all_eq_true] at h
  have hlen : u.length ≤ t.length := hut.length_le
  have hpos : 0 < u.length := List.length_pos.mpr hu
  have hmem : u.length - 1 ∈ List.range t.length := List.mem_range.mpr (by omega)
  have hk := h _ hmem
  have htake : t.take (u.length - 1 + 1) = u := by
    have he : u.length - 1 + 1 = u.length := by omega
    rw [he]
    exact (List.prefix_iff_eq_take.mp hut).symm
  rw [htake] at hk
  simp only [Bool.not_eq_true'] at hk
  have hb : u.isSuffixOf r = true := by simpa using hur
  rw [hb] at hk
  simp at hk

theorem noSufPre_spec (t r : Str) (h : noSufPre t r = true) :
    ∀ v, v ≠ [] → v <:+ t → ¬ v <+: r := by
  intro v hv hvt hvr
  unfold noSufPre at h
  rw [List.all_eq_true] at h
  have hlen : v.length ≤ t.length := hvt.length_le
  have hpos : 0 < v.length := List.length_pos.mpr hv
  have hmem : t.length - v.length ∈ List.range t.length := List.mem_range.mpr (by omega)
  have hk := h _ hmem
  have hdrop : t.drop (t.length - v.length) = v := (List.suffix_iff_eq_drop.mp hvt).symm
  rw [hdrop] at hk
  simp only [Bool.not_eq_true'] at hk
  have hb : v.isPrefixOf r = true := by simpa using hvr
  rw [hb] at hk
  simp at hk

theorem cleanPair_spec (t r : Str) (h : cleanPair t r = true) :
    ¬ t <:+: r ∧ ¬ r <:+: t ∧ (∀ v, v ≠ [] → v <:+ t → ¬ v <+: r) ∧
      (∀ u, u ≠ [] → u <+: t → ¬ u <:+ r) := by
  unfold cleanPair at h
  simp only [Bool.and_eq_true, Bool.not_eq_true'] at h
  obtain ⟨⟨⟨hc1, hc2⟩, hps⟩, hsp⟩ := h
  exact ⟨(containsSub_eq_false_iff t r).mp hc1, (containsSub_eq_false_iff r t).mp hc2,
    noSufPre_spec t r hsp, noPreSuf_spec t r hps⟩

theorem strReplaceAll_no_infix (n r : Str) (hn : n ≠ [])
    (hc : cleanPair n r = true) (s : Str) : ¬ n <:+: strReplaceAll n r s := by
  obtain ⟨h1, h2, hB, hC⟩ := cleanPair_spec n r hc
  unfold strReplaceAll
  rw [if_neg (by simpa [List.isEmpty_iff] using hn)]
  exact replAllGo_no_infix n r hn h1 h2 hB hC s.length s le_rfl

theorem strReplaceAll_keeps_no_infix (n r t : Str) (hn : n ≠ [])
    (hc : cleanPair t r = true) (s : Str) (hs : ¬ t <:+: s) :
    ¬ t <:+: strReplaceAll n r s := by
  obtain ⟨h1, h2, hB, hC⟩ := cleanPair_spec t r hc
  unfold strReplaceAll
  rw [if_neg (by simpa [List.isEmpty_iff] using hn)]
  exact replAllGo_keeps_no_infix n r t h1 h2 hB hC s.length s hs

theorem getSubstitution_no_dollar (matched before after : Str) :
    ∀ r : Str, noDollar r = true → getSubstitution matched before after r = r
  | [], _ => rfl
  | [_], _ => rfl
  | c1 :: c2 :: rest, h => by
    have hh : ¬(c1 = '$') ∧ noDollar (c2 :: rest) = true := by
      simp only [noDollar, List.all_cons, Bool.and_eq_true, Bool.not_eq_true',
        decide_eq_false_iff_not] at h ⊢
      exact ⟨h.1, ⟨h.2.1, h.2.2⟩⟩
    simp only [getSubstitution, if_neg hh.1]
    exact congrArg (c1 :: ·) (getSubstitution_no_dollar matched before after (c2 :: rest) hh.2)

theorem replAllSubstGo_no_dollar (n r : Str) (h : noDollar r = true) :
    ∀ (fuel : Nat) (pre s : Str), replAllSubstGo n r fuel pre s = replAllGo n r fuel s
  | 0, _, _ => rfl
  | _ + 1, _, [] => rfl
  | fuel + 1, pre, c :: cs => by
    simp only [replAllSubstGo, replAllGo]
    by_cases hp : n.isPrefixOf (c :: cs)
    · rw [if_pos hp, if_pos hp, getSubstitution_no_dollar _ _ _ r h,
        replAllSubstGo_no_dollar n r h fuel (pre ++ n) ((c :: cs).drop n.length)]
    · rw [if_neg hp, if_neg hp, replAllSubstGo_no_dollar n r h fuel (pre ++ [c]) cs]

theorem jsEmptySubstGo_no_dollar (r : Str) (h : noDollar r = true) :
    ∀ (pre s : Str), jsEmptySubstGo r pre s = jsEmptyReplaceAll r s
  | _, [] => by
    simp only [jsEmptySubstGo, jsEmptyReplaceAll, List.foldr]
    exact getSubstitution_no_dollar _ _ _ r h
  | pre, c :: cs => by
    simp only [jsEmptySubstGo, jsEmptyReplaceAll, List.foldr]
    rw [getSubstitution_no_dollar _ _ _ r h]
    have hrec := jsEmptySubstGo_no_dollar r h (pre ++ [c]) cs
    simp only [jsEmptyReplaceAll] at hrec
    rw [hrec]

theorem strReplaceAllSubst_no_dollar (n r s : Str) (h : noDollar r = true) :
    strReplaceAllSubst n r s = strReplaceAll n r s := by
  unfold strReplaceAllSubst strReplaceAll
  by_cases hn : n.isEmpty
  · rw [if_pos hn, if_pos hn, jsEmptySubstGo_no_dollar r h [] s]
  · rw [if_neg hn, if_neg hn, replAllSubstGo_no_dollar n r h s.length [] s]

theorem noDollar_append (a b : Str) (ha : noDollar a = true) (hb : noDollar b = true) :
    noDollar (a ++ b) = true := by
  simp only [noDollar, List.all_append, Bool.and_eq_true]
  exact ⟨ha, hb⟩

theorem noDollar_of_not_mem (s : Str) (h : '$' ∉ s) : noDollar s = true := by
  simp only [noDollar, List.all_eq_true, Bool.not_eq_true', decide_eq_false_iff_not]
  intro c hc hce
  exact h (hce ▸ hc)

theorem registrar_exprs_no_dollar (name : Str) (h : '$' ∉ name) :
    noDollar (registrar_ref_expr name) = true ∧
    noDollar (registrar_functions_expr name) = true ∧
    noDollar (registrar_data_expr name) = true := by
  have hn : noDollar name = true := noDollar_of_not_mem name h
  have h1 : noDollar ("window.WebpackPatcher.Registrars[\"".toList) = true := by decide
  have h2 : noDollar ("\"]".toList) = true := by decide
  have h3 : noDollar (".functions".toList) = true := by decide
  have h4 : noDollar (".data".toList) = true := by decide
  have hr : noDollar (registrar_ref_expr name) = true := by
    unfold registrar_ref_expr
    exact noDollar_append _ _ (noDollar_append _ _ h1 hn) h2
  refine ⟨hr, ?_, ?_⟩
  · unfold registrar_functions_expr
    exact noDollar_append _ _ hr h3
  · unfold registrar_data_expr
    exact noDollar_append _ _ hr h4

theorem resolve_placeholders_no_dollar (pid name code : Str) (h : '$' ∉ name) :
    resolve_placeholders pid name code
      = strReplaceAll (data_placeholder pid) (registrar_data_expr name)
          (strReplaceAll (functions_placeholder pid) (registrar_functions_expr name)
            (strReplaceAll (self_placeholder pid) (registrar_ref_expr name) code)) := by
  obtain ⟨h1, h2, h3⟩ := registrar_exprs_no_dollar name h
  unfold resolve_placeholders placeholder_replacements
  simp only [List.foldl]
  rw [strReplaceAllSubst_no_dollar _ _ _ h1, strReplaceAllSubst_no_dollar _ _ _ h2,
    strReplaceAllSubst_no_dollar _ _ _ h3]

theorem self_placeholder_ne_nil (pid : Str) : self_placeholder pid ≠ [] :=
  List.append_ne_nil_of_left_ne_nil (by decide) pid

theorem functions_placeholder_ne_nil (pid : Str) : functions_placeholder pid ≠ [] :=
  List.append_ne_nil_of_left_ne_nil (by decide) pid

theorem data_placeholder_ne_nil (pid : Str) : data_placeholder pid ≠ [] :=
  List.append_ne_nil_of_left_ne_nil (by decide) pid

/-- C4 counterexample: successful patch applications (the allocation counter
was bumped, so the edited text was compiled) whose compiled source still
contains a raw placeholder token.  First run: the registrar name is itself the
`data` token, so the substituted registrar-reference expression re-inserts the
token; a single `replaceAll` pass never rescans its own output, so the token
survives.  Second run: the registrar name is the two characters dollar-and,
which `GetSubstitution` expands to the matched text — the `functions` token
itself — re-inserting it into the output. -/
theorem c4_placeholder_residue_counterexample :
    ((apply_patch ex_cfg 0 ex_factory c4_fs [c4_rule] 5 c4ce_name).2.2 = 1 ∧
      containsSub (data_placeholder ex_cfg.placeholder_id)
        (apply_patch ex_cfg 0 ex_factory c4_fs [c4_rule] 5 c4ce_name).1.code = true) ∧
    ((apply_patch ex_cfg 0 ex_factory c4_fs [c4_rule] 5 ("$&".toList)).2.2 = 1 ∧
      containsSub (functions_placeholder ex_cfg.placeholder_id)
        (apply_patch ex_cfg 0 ex_factory c4_fs [c4_rule] 5 ("$&".toList)).1.code = true) := by
  refine ⟨⟨by decide, by decide⟩, by decide, by decide⟩

/-- C4 amended: after a successful patch application (one that compiled a new
factory), the compiled patched source contains zero occurrences of the three
raw placeholder tokens, provided the registrar name is free of the dollar
character (so `GetSubstitution` expands no escape from it) and the
registrar-reference expressions built from the name cannot contain or re-form
a token (each token/expression pair satisfies `cleanPair`: the token does not
occur in the expression, the expression does not occur in the token, and no
nonempty prefix/suffix of the token abuts the expression's ends) — conditions
that hold for ordinary registrar names, but which the counterexample's two
adversarial names violate. -/
theorem c4_placeholders_resolved_amended
    (cfg : Config) (nr : Nat) (f : Factory) (fs : Str) (mars : List Replacement)
    (mid : Nat) (name : Str) (f' : Factory) (code' : Str)
    (hdollar : '$' ∉ name)
    (hS : cleanPair (self_placeholder cfg.placeholder_id) (registrar_ref_expr name) = true)
    (hSF : cleanPair (self_placeholder cfg.placeholder_id) (registrar_functions_expr name) = true)
    (hSD : cleanPair (self_placeholder cfg.placeholder_id) (registrar_data_expr name) = true)
    (hF : cleanPair (functions_placeholder cfg.placeholder_id) (registrar_functions_expr name) = true)
    (hFD : cleanPair (functions_placeholder cfg.placeholder_id) (registrar_data_expr name) = true)
    (hD : cleanPair (data_placeholder cfg.placeholder_id) (registrar_data_expr name) = true)
    (hap : apply_patch cfg nr f fs mars mid name = (f', code', nr + 1)) :
    containsSub (self_placeholder cfg.placeholder_id) f'.code = false ∧
      containsSub (functions_placeholder cfg.placeholder_id) f'.code = false ∧
      containsSub (data_placeholder cfg.placeholder_id) f'.code = false ∧
      f'.code = code' := by
  simp only [apply_patch] at hap
  by_cases h0 : (apply_rules cfg mars fs).2 = 0
  · rw [if_pos h0] at hap
    exfalso
    have := congrArg (fun x => x.2.2) hap
    simp at this
  · rw [if_neg h0] at hap
    by_cases hcomp : cfg.compile_ok (compile_source cfg mid
        (resolve_placeholders cfg.placeholder_id name (apply_rules cfg mars fs).1)) = true
    · rw [if_pos hcomp] at hap
      have hf : f'
          = (⟨nr, resolve_placeholders cfg.placeholder_id name (apply_rules cfg mars fs).1,
              none⟩ : Factory) := by
        have := congrArg (fun x => x.1) hap
        simpa using this.symm
      have hcode : code' = resolve_placeholders cfg.placeholder_id name
          (apply_rules cfg mars fs).1 := by
        have := congrArg (fun x => x.2.1) hap
        simpa using this.symm
      subst hf
      subst hcode
      refine ⟨?_, ?_, ?_, rfl⟩
      · rw [containsSub_eq_false_iff]
        show ¬ _ <:+: resolve_placeholders cfg.placeholder_id name (apply_rules cfg mars fs).1
        rw [resolve_placeholders_no_dollar _ _ _ hdollar]
        apply strReplaceAll_keeps_no_infix _ _ _
          (data_placeholder_ne_nil cfg.placeholder_id) hSD
        apply strReplaceAll_keeps_no_infix _ _ _
          (functions_placeholder_ne_nil cfg.placeholder_id) hSF
        exact strReplaceAll_no_infix _ _
          (self_placeholder_ne_nil cfg.placeholder_id) hS _
      · rw [containsSub_eq_false_iff]
        show ¬ _ <:+: resolve_placeholders cfg.placeholder_id name (apply_rules cfg mars fs).1
        rw [resolve_placeholders_no_dollar _ _ _ hdollar]
        apply strReplaceAll_keeps_no_infix _ _ _
          (data_placeholder_ne_nil cfg.placeholder_id) hFD
        exact strReplaceAll_no_infix _ _
          (functions_placeholder_ne_nil cfg.placeholder_id) hF _
      · rw [containsSub_eq_false_iff]
        show ¬ _ <:+: resolve_placeholders cfg.placeholder_id name (apply_rules cfg mars fs).1
        rw [resolve_placeholders_no_dollar _ _ _ hdollar]
        exact strReplaceAll_no_infix _ _
          (data_placeholder_ne_nil cfg.placeholder_id) hD _
    · rw [if_neg hcomp] at hap
      exfalso
      have := congrArg (fun x => x.2.2) hap
      simp at this

theorem c4_placeholders_resolved_amended_witness :
    containsSub (self_placeholder ex_cfg.placeholder_id) c4_result_factory.code = false ∧
      containsSub (functions_placeholder ex_cfg.placeholder_id) c4_result_factory.code = false ∧
      containsSub (data_placeholder ex_cfg.placeholder_id) c4_result_factory.code = false ∧
      c4_result_factory.code = c4_result_code :=
  c4_placeholders_resolved_amended ex_cfg 0 ex_factory c4_fs [c4_rule] 5 ("myscript".toList)
    c4_result_factory c4_result_code (by decide) (by decide) (by decide) (by decide) (by decide)
    (by decide) (by decide) (by decide)
